import Mathlib

/-! # kind-multizone: `cmd/create.go`

A shallow embedding of the `create` command of kind-multizone and proofs about it.

* `renderNodes` is a pure function and is embedded as a Lean function on lists.
* `ensureNetwork`, `createNetwork`, `deleteNetwork` and `ensureCluster` talk to the Docker
  daemon, the process environment and the kind cluster provider.  They are embedded as
  state-passing functions over an explicit `Docker` / `World` state.
* A Go result `(string, error)` is a pair `String × Option Err`; `none` is Go's `nil` error.
* Go strings are byte strings.  Every string inspected byte by byte here (`net.ParseCIDR`) is only
  compared against ASCII bytes, so the embedding over Lean characters takes the same branches.
* Console output (`fmt.Printf`) is not part of the modelled state.
-/

namespace KindMultizone

/-! ## Constants (`create.go`, lines 41-53) -/

def topologyLabelRegion : String := "topology.kubernetes.io/region"
def topologyLabelZone : String := "topology.kubernetes.io/zone"
def defaultName : String := "kind-multizone"
def defaultZones : Int := 1
def defaultNodes : Int := 1
def defaultRetain : Bool := false
def defaultControlPlane : Nat := 1
def defaultNodeImage : String := "kindest/node:v1.31.4"
def topologyZoneWorker : String := "zone-workers-%d"
def topologyZoneControlPlane : String := "zone-controlplane-%d"

/-! ## `fmt.Sprintf` with one `%d` verb -/

/-- Expansion of a format with a single integer argument: the first `%d` is replaced by the
decimal rendering of the argument, every other character is copied. -/
def sprintfChars : List Char → Int → List Char
  | '%' :: 'd' :: rest, i => (toString i).toList ++ rest
  | c :: rest, i => c :: sprintfChars rest i
  | [], _ => []

/-- The call `fmt.Sprintf(format, i)` for the formats used in `create.go`. -/
def Sprintf (format : String) (i : Int) : String :=
  String.mk (sprintfChars format.toList i)

/-! ## Node topology (`renderNodes`) -/

/-- The type `config.NodeRole` of kind's `v1alpha4` API. -/
inductive NodeRole where
  | ControlPlaneRole
  | WorkerRole
  deriving DecidableEq, Repr

/-- The fields of `config.Node` that `renderNodes` sets; `Labels` is the Go map, kept as an
association list. -/
structure Node where
  Role : NodeRole
  Image : String
  Labels : List (String × String)
  deriving DecidableEq, Repr

/-- The node appended by the body of the control-plane loop (lines 169-176). -/
def controlPlaneNode (i : Nat) : Node :=
  { Role := NodeRole.ControlPlaneRole
    Image := defaultNodeImage
    Labels := [(topologyLabelZone, Sprintf topologyZoneControlPlane i)] }

/-- The node appended by the body of the inner worker loop (lines 180-187). -/
def workerNode (i : Nat) : Node :=
  { Role := NodeRole.WorkerRole
    Image := defaultNodeImage
    Labels := [(topologyLabelZone, Sprintf topologyZoneWorker i)] }

/-- The function `renderNodes` (lines 166-192).  A Go loop `for i := 0; i < n; i++` runs its body
for `i = 0, ..., n-1`, and not at all when `n ≤ 0`: it is a fold over `List.range n.toNat`. -/
def renderNodes (zones : Int) (nodesPerZone : Int) : List Node :=
  let nodes : List Node := []
  let nodes := (List.range defaultControlPlane).foldl
    (fun nodes i => nodes ++ [controlPlaneNode i]) nodes
  let nodes := (List.range zones.toNat).foldl
    (fun nodes i =>
      (List.range nodesPerZone.toNat).foldl (fun nodes _j => nodes ++ [workerNode i]) nodes)
    nodes
  nodes

/-- The value of the zone label of a node, if it has one. -/
def zoneLabel (n : Node) : Option String :=
  n.Labels.lookup topologyLabelZone

/-- The workers of the first `z` zones, `n` per zone, in the order the nested loop appends
them. -/
def workerBlocks (n : Nat) : Nat → List Node
  | 0 => []
  | z + 1 => workerBlocks n z ++ List.replicate n (workerNode z)

/-! ## Reading a decimal rendering back -/

/-- The value of a decimal digit character. -/
def digitValue (c : Char) : Nat := c.toNat - 48

/-- Horner evaluation of a list of digit characters, starting from `acc`. -/
def decimalValue (acc : Nat) (cs : List Char) : Nat :=
  cs.foldl (fun a c => a * 10 + digitValue c) acc

/-! ## Errors -/

/-- The Go `error` values that can flow through `create.go`. -/
inductive Err where
  /-- An error of `client.NewClientWithOpts`. -/
  | client (msg : String)
  /-- A failure reported by the Docker daemon for a call, for a reason outside the model
  (daemon unreachable, network in use, ...). -/
  | daemon (msg : String)
  /-- The daemon's answer to `NetworkRemove` of an unknown id. -/
  | noSuchNetwork (id : String)
  /-- The daemon's answer to `NetworkCreate` under a name already taken. -/
  | nameConflict (name : String)
  /-- The value `&net.ParseError{Type: "CIDR address", Text: text}`. -/
  | parseCIDR (text : String)
  /-- An error of a `cmd.Flags().Get...` call. -/
  | flag (msg : String)
  /-- An error of the cluster provider. -/
  | provider (msg : String)
  /-- The value `errors.Wrap(cause, msg)`. -/
  | wrap (cause : Err) (msg : String)
  deriving DecidableEq, Repr

/-! ## Go's `net` package: `ParseCIDR`, `CIDRMask`, `IPNet.String`

The functions follow the Go 1.22 standard library.  Addresses and masks are byte slices, kept as
lists of naturals; the `nil` slice is `[]`.  `IP_Mask`, `IP_To4`, `IP_String` and `IPNet_String`
are the methods `IP.Mask`, `IP.To4`, `IP.String` and `IPNet.String`.
The IPv6 halves of the package (the text parser and the text formatter of 16-byte addresses that
are not IPv4-mapped) are not embedded; they are the two fields of `NetLib`. -/

/-- The parts of Go's `net`/`netip` packages taken as parameters. -/
structure NetLib where
  /-- The function `netip.parseIPv6`: the 16 bytes and the zone of a textual IPv6 address. -/
  parseIPv6 : String → Option (List Nat × String)
  /-- The text of a 16-byte address that is not IPv4-mapped. -/
  formatIPv6 : List Nat → String

def IPv4len : Nat := 4
def IPv6len : Nat := 16

def v4InV6Prefix : List Nat := [0, 0, 0, 0, 0, 0, 0, 0, 0, 0, 0xff, 0xff]

/-- The type `net.IPNet`. -/
structure IPNet where
  IP : List Nat
  Mask : List Nat
  deriving DecidableEq, Repr

/-- The loop of `net.CIDRMask`: `l` bytes remain to be written, `n` one-bits remain. -/
def cidrMaskLoop : Nat → Nat → List Nat
  | 0, _ => []
  | l + 1, n =>
    if n ≥ 8 then 0xff :: cidrMaskLoop l (n - 8)
    else (0xff ^^^ (0xff >>> n)) :: cidrMaskLoop l 0

/-- The function `net.CIDRMask(ones, bits)`. -/
def CIDRMask (ones bits : Nat) : List Nat :=
  if bits != 8 * IPv4len && bits != 8 * IPv6len then []
  else if ones > bits then []
  else cidrMaskLoop (bits / 8) ones

/-- The method `IP.IP_To4`. -/
def IP_To4 (ip : List Nat) : List Nat :=
  if ip.length == IPv4len then ip
  else if ip.length == IPv6len && (ip.take 10).all (fun b => b == 0)
      && ((ip.drop 10).take 2).all (fun b => b == 0xff) then
    (ip.drop 12).take 4
  else []

/-- The method `IP.Mask`. -/
def IP_Mask (ip mask : List Nat) : List Nat :=
  let mask :=
    if mask.length == IPv6len && ip.length == IPv4len && (mask.take 12).all (fun b => b == 0xff)
    then mask.drop 12 else mask
  let ip :=
    if mask.length == IPv4len && ip.length == IPv6len && ip.take 12 == v4InV6Prefix
    then ip.drop 12 else ip
  if ip.length != mask.length then []
  else List.zipWith (fun a b => a &&& b) ip mask

/-- The function `hexString`: two lower-case hexadecimal digits per byte. -/
def hexString (b : List Nat) : String :=
  String.mk (b.flatMap (fun x => [Nat.digitChar (x >>> 4), Nat.digitChar (x &&& 0x0f)]))

/-- The inner loop of `simpleMaskLength`: `for v&0x80 != 0 { n++; v <<= 1 }` on a byte `v`.
A byte is zero after eight shifts, so eight rounds are always enough. -/
def leadingOnes : Nat → Int → Nat → Int × Nat
  | 0, n, v => (n, v)
  | fuel + 1, n, v =>
    if v &&& 0x80 != 0 then leadingOnes fuel (n + 1) ((v <<< 1) % 256) else (n, v)

/-- The loop of `simpleMaskLength`, with the count `n` so far. -/
def simpleMaskLengthLoop (n : Int) : List Nat → Int
  | [] => n
  | v :: rest =>
    if v == 0xff then simpleMaskLengthLoop (n + 8) rest
    else
      let (n, v) := leadingOnes 8 n v
      if v != 0 then -1
      else if rest.any (fun b => b != 0) then -1
      else n

/-- The function `simpleMaskLength`. -/
def simpleMaskLength (mask : List Nat) : Int :=
  simpleMaskLengthLoop 0 mask

/-- The function `networkNumberAndMask`; `none` is the result `(nil, nil)`. -/
def networkNumberAndMask (n : IPNet) : Option (List Nat × List Nat) :=
  let ip4 := IP_To4 n.IP
  if ip4.isEmpty && n.IP.length != IPv6len then none
  else
    let ip := if ip4.isEmpty then n.IP else ip4
    let m := n.Mask
    if m.length == IPv4len then
      if ip.length != IPv4len then none else some (ip, m)
    else if m.length == IPv6len then
      if ip.length == IPv4len then some (ip, m.drop 12) else some (ip, m)
    else none

/-- The dotted-decimal text of four bytes. -/
def dottedDecimal (p4 : List Nat) : String :=
  ".".intercalate (p4.map toString)

/-- The method `IP.String`. -/
def IP_String (lib : NetLib) (ip : List Nat) : String :=
  if ip.length == 0 then "<nil>"
  else if ip.length != IPv4len && ip.length != IPv6len then "?" ++ hexString ip
  else
    let p4 := IP_To4 ip
    if p4.length == IPv4len then dottedDecimal p4
    else lib.formatIPv6 ip

/-- The method `IPNet.String`. -/
def IPNet_String (lib : NetLib) (n : IPNet) : String :=
  match networkNumberAndMask n with
  | none => "<nil>"
  | some (nn, m) =>
    let l := simpleMaskLength m
    if l == -1 then IP_String lib nn ++ "/" ++ hexString m
    else IP_String lib nn ++ "/" ++ toString l.toNat

def big : Nat := 0xFFFFFF

/-- The loop of `dtoi` with the value `n` and the index `i` so far; the result is
`(n, i, ok)`. -/
def dtoiLoop : List Char → Nat → Nat → Nat × Nat × Bool
  | [], n, i => if i == 0 then (0, 0, false) else (n, i, true)
  | c :: cs, n, i =>
    if '0' ≤ c ∧ c ≤ '9' then
      let n := n * 10 + (c.toNat - '0'.toNat)
      if n ≥ big then (big, i, false) else dtoiLoop cs n (i + 1)
    else if i == 0 then (0, 0, false) else (n, i, true)

/-- The function `dtoi`. -/
def dtoi (s : List Char) : Nat × Nat × Bool :=
  dtoiLoop s 0 0

/-- The loop of `netip.parseIPv4Fields` over the rest of the text: `val`, `pos`, `digLen` and
`fields` are the loop variables, `atStart` is `i == 0`, `prevDot` is `s[i-1] == '.'`.  The result
is the four fields, or `none` for any of its errors. -/
def parseIPv4Fields :
    List Char → (val pos digLen : Nat) → (fields : List Nat) → (atStart prevDot : Bool)
      → Option (List Nat)
  | [], val, pos, _, fields, _, _ =>
    if pos < 3 then none else some (fields ++ [val])
  | c :: cs, val, pos, digLen, fields, atStart, prevDot =>
    if '0' ≤ c ∧ c ≤ '9' then
      if digLen == 1 && val == 0 then none
      else
        let val := val * 10 + c.toNat - '0'.toNat
        if val > 255 then none
        else parseIPv4Fields cs val pos (digLen + 1) fields false false
    else if c == '.' then
      if atStart || cs.isEmpty || prevDot then none
      else if pos == 3 then none
      else parseIPv4Fields cs 0 (pos + 1) 0 (fields ++ [val]) false true
    else none

/-- The type `netip.Addr`. -/
inductive Addr where
  | v4 (fields : List Nat)
  | v6 (bytes : List Nat) (zone : String)
  deriving DecidableEq, Repr

/-- The function `netip.parseIPv4`. -/
def parseIPv4 (s : List Char) : Option Addr :=
  (parseIPv4Fields s 0 0 0 [] true false).map Addr.v4

/-- The scan of `netip.ParseAddr` for the first of `.`, `:` and `%` in the text `s`. -/
def parseAddrScan (lib : NetLib) (s : List Char) : List Char → Option Addr
  | [] => none
  | c :: cs =>
    if c == '.' then parseIPv4 s
    else if c == ':' then (lib.parseIPv6 (String.mk s)).map (fun r => Addr.v6 r.1 r.2)
    else if c == '%' then none
    else parseAddrScan lib s cs

/-- The function `netip.ParseAddr`. -/
def ParseAddr (lib : NetLib) (s : List Char) : Option Addr :=
  parseAddrScan lib s s

def Addr.Zone : Addr → String
  | Addr.v4 _ => ""
  | Addr.v6 _ zone => zone

def Addr.BitLen : Addr → Nat
  | Addr.v4 _ => 32
  | Addr.v6 _ _ => 128

def Addr.As16 : Addr → List Nat
  | Addr.v4 fields => v4InV6Prefix ++ fields
  | Addr.v6 bytes _ => bytes

/-- The function `net.ParseCIDR`: the address and the network, or the parse error. -/
def ParseCIDR (lib : NetLib) (s : String) : Except Err (List Nat × IPNet) :=
  let cs := s.toList
  let i := cs.indexOf '/'
  if i ≥ cs.length then Except.error (Err.parseCIDR s)
  else
    let addr := cs.take i
    let mask := cs.drop (i + 1)
    match ParseAddr lib addr with
    | none => Except.error (Err.parseCIDR s)
    | some ipAddr =>
      if ipAddr.Zone != "" then Except.error (Err.parseCIDR s)
      else
        let (n, i, ok) := dtoi mask
        if !ok || i != mask.length || n > ipAddr.BitLen then Except.error (Err.parseCIDR s)
        else
          let m := CIDRMask n ipAddr.BitLen
          let addr16 := ipAddr.As16
          Except.ok (addr16, { IP := IP_Mask addr16 m, Mask := m })

/-! ## The Docker daemon

The daemon is an external collaborator.  Its model is the one of the specification's "Network
Service": a collection of `(id, name)` networks, where `list` returns all of them, `remove(id)`
deletes the network with that id and `create(name, options)` adds one network under a fresh id,
refusing a name that is already taken.  Besides, every call may fail for a reason of the daemon's
own: the `faults` list is consumed one entry per call, and an entry `some msg` makes that call
fail with `Err.daemon msg` without changing the networks.  Every call is recorded in `log`
together with the networks that existed when it arrived and with its outcome. -/

/-- The fields `ID` and `Name` of a `network.Summary`. -/
structure Network where
  ID : String
  Name : String
  deriving DecidableEq, Repr

/-- The type `network.IPAMConfig` (`Gateway` and `AuxAddress` stay unset). -/
structure IPAMConfig where
  Subnet : String
  IPRange : String
  deriving DecidableEq, Repr

/-- The type `network.IPAM`. -/
structure IPAM where
  Config : List IPAMConfig
  deriving DecidableEq, Repr

/-- The fields of `network.CreateOptions` that `createNetwork` sets; `IPAM` is a pointer, `none`
is `nil`; `Options` is the Go map, kept as an association list. -/
structure CreateOptions where
  Attachable : Bool
  Options : List (String × String)
  IPAM : Option IPAM
  deriving DecidableEq, Repr

/-- A call of the Docker API client. -/
inductive APICall where
  | NetworkList
  | NetworkRemove (id : String)
  | NetworkCreate (name : String) (options : CreateOptions)
  deriving DecidableEq, Repr

/-- A recorded call: the networks present when it arrived, and its error (`none`: success). -/
structure APIEvent where
  call : APICall
  before : List Network
  err : Option Err
  deriving DecidableEq, Repr

/-- The state of the Docker side of the world. -/
structure Docker where
  /-- The error of `client.NewClientWithOpts`, if it fails. -/
  clientErr : Option String
  networks : List Network
  faults : List (Option String)
  log : List APIEvent
  deriving DecidableEq, Repr

/-- An id carried by no network of the list: it is longer than each of their ids. -/
def freshID (nets : List Network) : String :=
  String.mk (List.replicate (1 + (nets.map (fun n => n.ID.length)).foldr max 0) 'f')

/-- The fault, if any, that the daemon has in store for the next call. -/
def Docker.nextFault (d : Docker) : Option String :=
  match d.faults with
  | f :: _ => f
  | [] => none

/-- Modelled from the spec: the Network Service's `list()`, reached through
`apiClient.NetworkList`. -/
def Docker.NetworkList (d : Docker) : (List Network × Option Err) × Docker :=
  match d.nextFault with
  | some msg =>
    (([], some (Err.daemon msg)),
      { d with faults := d.faults.tail
               log := d.log ++ [⟨APICall.NetworkList, d.networks, some (Err.daemon msg)⟩] })
  | none =>
    ((d.networks, none),
      { d with faults := d.faults.tail
               log := d.log ++ [⟨APICall.NetworkList, d.networks, none⟩] })

/-- Modelled from the spec: the Network Service's `remove(id)`, reached through
`apiClient.NetworkRemove`. -/
def Docker.NetworkRemove (d : Docker) (netID : String) : Option Err × Docker :=
  match d.nextFault with
  | some msg =>
    (some (Err.daemon msg),
      { d with faults := d.faults.tail
               log := d.log ++
                 [⟨APICall.NetworkRemove netID, d.networks, some (Err.daemon msg)⟩] })
  | none =>
    if d.networks.any (fun n => n.ID == netID) then
      (none,
        { d with faults := d.faults.tail
                 networks := d.networks.filter (fun n => n.ID != netID)
                 log := d.log ++ [⟨APICall.NetworkRemove netID, d.networks, none⟩] })
    else
      (some (Err.noSuchNetwork netID),
        { d with faults := d.faults.tail
                 log := d.log ++
                   [⟨APICall.NetworkRemove netID, d.networks, some (Err.noSuchNetwork netID)⟩] })

/-- Modelled from the spec: the Network Service's `create(name, options)`, reached through
`apiClient.NetworkCreate`; the result is the id of the response. -/
def Docker.NetworkCreate (d : Docker) (name : String) (options : CreateOptions) :
    (String × Option Err) × Docker :=
  match d.nextFault with
  | some msg =>
    (("", some (Err.daemon msg)),
      { d with faults := d.faults.tail
               log := d.log ++
                 [⟨APICall.NetworkCreate name options, d.networks, some (Err.daemon msg)⟩] })
  | none =>
    if d.networks.any (fun n => n.Name == name) then
      (("", some (Err.nameConflict name)),
        { d with faults := d.faults.tail
                 log := d.log ++
                   [⟨APICall.NetworkCreate name options, d.networks,
                     some (Err.nameConflict name)⟩] })
    else
      ((freshID d.networks, none),
        { d with faults := d.faults.tail
                 networks := d.networks ++ [⟨freshID d.networks, name⟩]
                 log := d.log ++ [⟨APICall.NetworkCreate name options, d.networks, none⟩] })

/-! ## Network provisioning (`ensureNetwork`, `createNetwork`, `deleteNetwork`) -/

/-- The function `deleteNetwork` (lines 261-270). -/
def deleteNetwork (d : Docker) (_name : String) (netID : String) : Option Err × Docker :=
  let (err, d) := d.NetworkRemove netID
  match err with
  | some err => (some err, d)
  | none => (none, d)

/-- The function `createNetwork` (lines 230-259). -/
def createNetwork (lib : NetLib) (d : Docker) (name : String) (subnet : String)
    (masquerade : Bool) : (String × Option Err) × Docker :=
  let options : CreateOptions :=
    { Attachable := true
      Options :=
        [("com.docker.network.bridge.name", name),
         ("com.docker.network.driver.mtu", toString (1500 : Int)),
         ("com.docker.network.bridge.enable_ip_masquerade", toString masquerade)]
      IPAM := none }
  let built : Except Err CreateOptions :=
    if subnet != "" then
      let options := { options with IPAM := some { Config := [] } }
      match ParseCIDR lib subnet with
      | Except.error err => Except.error err
      | Except.ok (_, cidr) =>
        let cidr := { cidr with Mask := CIDRMask 27 32 }
        Except.ok { options with
          IPAM := some { Config := [] ++ [{ Subnet := subnet, IPRange := IPNet_String lib cidr }] } }
    else Except.ok options
  match built with
  | Except.error err => (("", some err), d)
  | Except.ok options =>
    let ((respID, err), d) := d.NetworkCreate name options
    match err with
    | some err => (("", some err), d)
    | none => ((respID, none), d)

/-- The loop of `ensureNetwork` over the listed networks (lines 211-221); an error is the early
`return "", err`. -/
def deleteDuplicates (name : String) : List Network → Docker → Option Err × Docker
  | [], d => (none, d)
  | net :: rest, d =>
    if net.Name == name then
      match deleteNetwork d name net.ID with
      | (some err, d) => (some err, d)
      | (none, d) => deleteDuplicates name rest d
    else deleteDuplicates name rest d

/-- The function `ensureNetwork` (lines 194-228). -/
def ensureNetwork (lib : NetLib) (d : Docker) (name : String) (subnet : String)
    (masquerade : Bool) : (String × Option Err) × Docker :=
  match d.clientErr with
  | some msg => (("", some (Err.client msg)), d)
  | none =>
    let ((networks, err), d) := d.NetworkList
    match err with
    | some err => (("", some err), d)
    | none =>
      match deleteDuplicates name networks d with
      | (some err, d) => (("", some err), d)
      | (none, d) =>
        let ((netID, err), d) := createNetwork lib d name subnet masquerade
        match err with
        | some err => (("", some err), d)
        | none => ((netID, none), d)

/-- The networks of a list that carry the name `name`. -/
def named (name : String) (nets : List Network) : List Network :=
  nets.filter (fun n => n.Name == name)

/-- The events that a run from state `d` to state `d2` appended to the log. -/
def newEvents (d d2 : Docker) : List APIEvent :=
  d2.log.drop d.log.length

/-- Whether a call is a `NetworkCreate`. -/
def APICall.isCreate : APICall → Bool
  | APICall.NetworkCreate _ _ => true
  | _ => false

/-- Whether a call is a `NetworkRemove`. -/
def APICall.isRemove : APICall → Bool
  | APICall.NetworkRemove _ => true
  | _ => false

/-- The value of `options` that `createNetwork` has built when it reaches the call of
`NetworkCreate` (lines 231-252), or the error of its early return. -/
def createOptions (lib : NetLib) (name : String) (subnet : String) (masquerade : Bool) :
    Except Err CreateOptions :=
  let options : CreateOptions :=
    { Attachable := true
      Options :=
        [("com.docker.network.bridge.name", name),
         ("com.docker.network.driver.mtu", toString (1500 : Int)),
         ("com.docker.network.bridge.enable_ip_masquerade", toString masquerade)]
      IPAM := none }
  if subnet != "" then
    match ParseCIDR lib subnet with
    | Except.error err => Except.error err
    | Except.ok (_, cidr) =>
      Except.ok { options with
        IPAM := some { Config :=
          [{ Subnet := subnet, IPRange := IPNet_String lib { cidr with Mask := CIDRMask 27 32 } }] } }
  else Except.ok options

/-- The value of `cidr` in `createNetwork` after `cidr.Mask = net.CIDRMask(27, 32)` (line 245),
whose text becomes the `IPRange`. -/
def ipRangeNet (lib : NetLib) (subnet : String) : Option IPNet :=
  match ParseCIDR lib subnet with
  | Except.ok (_, cidr) => some { cidr with Mask := CIDRMask 27 32 }
  | Except.error _ => none

/-! ## IPv4 addresses as numbers

The vocabulary of the statements about the address range: an IPv4 address `a.b.c.d` is the number
`a * 2^24 + b * 2^16 + c * 2^8 + d`; the network base of an address under a prefix length `p` is
the address with its `32 - p` low bits cleared. -/

def ipv4Value (a b c d : Nat) : Nat :=
  a * 2 ^ 24 + b * 2 ^ 16 + c * 2 ^ 8 + d

def networkBase (addr p : Nat) : Nat :=
  addr / 2 ^ (32 - p) * 2 ^ (32 - p)

/-- The dotted-decimal text of a 32-bit number. -/
def dottedOfValue (v : Nat) : String :=
  toString (v / 2 ^ 24 % 256) ++ "." ++ toString (v / 2 ^ 16 % 256) ++ "."
    ++ toString (v / 2 ^ 8 % 256) ++ "." ++ toString (v % 256)

/-- The number that a big-endian byte slice denotes. -/
def bytesValue (ip : List Nat) : Nat :=
  ip.foldl (fun acc b => acc * 256 + b) 0

/-- The range `range` is a sub-block of the subnet of prefix length `p` around the address `addr`:
its base is aligned to the boundary of its own prefix length, and each of the addresses from its
base on, as many as its prefix length leaves, has the leading `p` bits of `addr`. -/
def IsSubBlock (range : IPNet) (addr p : Nat) : Prop :=
  bytesValue range.IP % 2 ^ (32 - (simpleMaskLength range.Mask).toNat) = 0
    ∧ ∀ x, bytesValue range.IP ≤ x →
        x < bytesValue range.IP + 2 ^ (32 - (simpleMaskLength range.Mask).toNat) →
        x / 2 ^ (32 - p) = addr / 2 ^ (32 - p)

/-! ## The `create` command (`ensureCluster`) -/

/-- The results `(value, err)` of the four `cmd.Flags().Get...` calls. -/
structure Flags where
  name : String × Option Err
  zones : Int × Option Err
  nodesPerZone : Int × Option Err
  retain : Bool × Option Err

/-- A call of the kind cluster provider. -/
inductive ProviderCall where
  | List
  | Create (name : String) (nodes : List Node) (retain : Bool) (displayUsage : Bool)
  deriving DecidableEq, Repr

/-- The cluster provider, an external collaborator: `createErr` is the outcome of its `Create`,
`log` records the calls it received. -/
structure Provider where
  createErr : Option String
  log : List ProviderCall
  deriving Repr

/-- The process environment, the Docker daemon and the cluster provider. -/
structure World where
  env : String → Option String
  docker : Docker
  provider : Provider

/-- The call `os.Setenv(key, value)`. -/
def Setenv (env : String → Option String) (key value : String) : String → Option String :=
  fun k => if k == key then some value else env k

/-- The call `os.Unsetenv(key)`. -/
def Unsetenv (env : String → Option String) (key : String) : String → Option String :=
  fun k => if k == key then none else env k

/-- The function `ensureCluster` (lines 104-164).  The error of `GetBool("retain")` is assigned
and never read. -/
def ensureCluster (lib : NetLib) (flags : Flags) (w : World) : Option Err × World :=
  let (name, err) := flags.name
  match err with
  | some err => (some err, w)
  | none =>
    let (zones, err) := flags.zones
    match err with
    | some err => (some err, w)
    | none =>
      let (nodesPerZones, err) := flags.nodesPerZone
      match err with
      | some err => (some err, w)
      | none =>
        let (retain, _) := flags.retain
        let w := { w with provider := { w.provider with log := w.provider.log ++ [ProviderCall.List] } }
        let clusterNetworkName := "kmz-" ++ name
        let ((_netID, err), docker) := ensureNetwork lib w.docker clusterNetworkName "" true
        let w := { w with docker := docker }
        match err with
        | some err => (some err, w)
        | none =>
          let w := { w with env := Setenv w.env "KIND_EXPERIMENTAL_DOCKER_NETWORK" clusterNetworkName }
          let nodes := renderNodes zones nodesPerZones
          let w := { w with provider := { w.provider with
            log := w.provider.log ++ [ProviderCall.Create name nodes retain true] } }
          match w.provider.createErr with
          | some msg => (some (Err.wrap (Err.provider msg) "Failed to create cluster"), w)
          | none =>
            let w := { w with env := Unsetenv w.env "KIND_EXPERIMENTAL_DOCKER_NETWORK" }
            (none, w)

/-! ## Example states -/

/-- A `NetLib` that knows no IPv6 address. -/
def exampleLib : NetLib :=
  ⟨fun _ => none, fun _ => "?"⟩

/-- A daemon that holds the default bridge and two stale networks of the default cluster, and
that reports no fault. -/
def exampleDocker : Docker :=
  { clientErr := none
    networks := [⟨"1f0a", "bridge"⟩, ⟨"77c2", "kmz-kind-multizone"⟩, ⟨"9be4", "kmz-kind-multizone"⟩]
    faults := []
    log := [] }

/-- The same daemon, unreachable at the first call. -/
def exampleDockerListFails : Docker :=
  { exampleDocker with faults := [some "Cannot connect to the Docker daemon"] }

/-- The same daemon, refusing the second removal. -/
def exampleDockerRemoveFails : Docker :=
  { exampleDocker with faults := [none, none, some "network has active endpoints"] }

/-- The flags of `kind-multizone create` with every default. -/
def exampleFlags : Flags :=
  { name := (defaultName, none)
    zones := (defaultZones, none)
    nodesPerZone := (defaultNodes, none)
    retain := (defaultRetain, none) }

/-- A world with an empty environment whose provider creates the cluster. -/
def exampleWorld : World :=
  { env := fun _ => none
    docker := exampleDocker
    provider := { createErr := none, log := [] } }

/-- The same world, whose provider fails to create the cluster. -/
def exampleWorldCreateFails : World :=
  { exampleWorld with provider := { createErr := some "failed to init node", log := [] } }

/-- The same world, whose daemon is unreachable. -/
def exampleWorldListFails : World :=
  { exampleWorld with docker := exampleDockerListFails }

/-! # Proofs -/

/-! ## Decimal rendering is injective -/

theorem digitValue_digitChar (k : Nat) (hk : k < 10) : digitValue (Nat.digitChar k) = k := by
  interval_cases k <;> rfl

theorem decimalValue_toDigitsCore (fuel : Nat) :
    ∀ (n : Nat) (ds : List Char), n < fuel →
      decimalValue 0 (Nat.toDigitsCore 10 fuel n ds) = decimalValue n ds := by
  induction fuel with
  | zero => intro n ds h; omega
  | succ fuel ih =>
    intro n ds hlt
    have hd : digitValue (Nat.digitChar (n % 10)) = n % 10 :=
      digitValue_digitChar _ (Nat.mod_lt _ (by decide))
    by_cases h0 : n / 10 = 0
    · have hn : n % 10 = n := by omega
      rw [hn] at hd
      simp [Nat.toDigitsCore, h0, decimalValue, hd, hn]
    · have hlt2 : n / 10 < fuel := by omega
      have hrec := ih (n / 10) (Nat.digitChar (n % 10) :: ds) hlt2
      have hn : n / 10 * 10 + n % 10 = n := by omega
      simp only [Nat.toDigitsCore, h0, if_false]
      rw [hrec]
      simp [decimalValue, hd, hn]

theorem decimalValue_repr (n : Nat) : decimalValue 0 (Nat.repr n).toList = n := by
  simp only [Nat.repr, Nat.toDigits, List.asString, String.toList]
  exact decimalValue_toDigitsCore (n + 1) n [] (Nat.lt_succ_self n)

theorem natRepr_injective (a b : Nat) (h : Nat.repr a = Nat.repr b) : a = b := by
  have ha := decimalValue_repr a
  rw [h, decimalValue_repr b] at ha
  exact ha.symm

theorem toString_natCast_injective (a b : Nat)
    (h : toString (a : Int) = toString (b : Int)) : a = b := by
  have h2 : Nat.repr a = Nat.repr b := h
  exact natRepr_injective a b h2

theorem Sprintf_worker (i : Int) :
    Sprintf topologyZoneWorker i = "zone-workers-" ++ toString i := by
  apply String.ext
  simp [Sprintf, topologyZoneWorker, sprintfChars, String.toList]

theorem Sprintf_controlPlane (i : Int) :
    Sprintf topologyZoneControlPlane i = "zone-controlplane-" ++ toString i := by
  apply String.ext
  simp [Sprintf, topologyZoneControlPlane, sprintfChars, String.toList]

theorem Sprintf_worker_injective (a b : Nat)
    (h : Sprintf topologyZoneWorker a = Sprintf topologyZoneWorker b) : a = b := by
  rw [Sprintf_worker, Sprintf_worker] at h
  have h2 := congrArg String.data h
  rw [String.data_append, String.data_append] at h2
  have h3 := List.append_cancel_left h2
  exact toString_natCast_injective a b (String.ext h3)

/-! ## `renderNodes` -/

theorem foldl_append_const (x : Node) (n : Nat) (acc : List Node) :
    (List.range n).foldl (fun nodes _j => nodes ++ [x]) acc = acc ++ List.replicate n x := by
  induction n with
  | zero => simp
  | succ n ih =>
    rw [List.range_succ, List.foldl_append, ih, List.replicate_succ']
    simp

theorem foldl_worker_zones (n z : Nat) (acc : List Node) :
    (List.range z).foldl
      (fun nodes i => (List.range n).foldl (fun nodes _j => nodes ++ [workerNode i]) nodes) acc
      = acc ++ workerBlocks n z := by
  induction z with
  | zero => simp [workerBlocks]
  | succ z ih =>
    rw [List.range_succ, List.foldl_append, ih]
    simp [workerBlocks, foldl_append_const]

theorem renderNodes_eq (zones nodesPerZone : Int) :
    renderNodes zones nodesPerZone
      = controlPlaneNode 0 :: workerBlocks nodesPerZone.toNat zones.toNat := by
  have h1 : List.range 1 = [0] := rfl
  simp [renderNodes, foldl_worker_zones, defaultControlPlane, h1]

theorem length_workerBlocks (n z : Nat) : (workerBlocks n z).length = z * n := by
  induction z with
  | zero => simp [workerBlocks]
  | succ z ih => simp [workerBlocks, ih, Nat.succ_mul]

theorem role_of_mem_workerBlocks (n z : Nat) (x : Node) (hx : x ∈ workerBlocks n z) :
    x.Role = NodeRole.WorkerRole := by
  induction z with
  | zero => simp [workerBlocks] at hx
  | succ z ih =>
    simp only [workerBlocks, List.mem_append] at hx
    rcases hx with h | h
    · exact ih h
    · rw [List.eq_of_mem_replicate h]; rfl

theorem getElem?_workerBlocks (n z i j : Nat) (hi : i < z) (hj : j < n) :
    (workerBlocks n z)[i * n + j]? = some (workerNode i) := by
  induction z with
  | zero => omega
  | succ z ih =>
    simp only [workerBlocks]
    by_cases hiz : i < z
    · have hlt : i * n + j < (workerBlocks n z).length := by
        rw [length_workerBlocks]
        calc i * n + j < i * n + n := by omega
          _ = (i + 1) * n := by rw [Nat.succ_mul]
          _ ≤ z * n := Nat.mul_le_mul_right n hiz
      rw [List.getElem?_append_left hlt]
      exact ih hiz
    · have hiz2 : i = z := by omega
      subst hiz2
      have hge : (workerBlocks n i).length ≤ i * n + j := by
        rw [length_workerBlocks]; omega
      rw [List.getElem?_append_right hge, length_workerBlocks]
      simp [hj]

theorem getElem?_renderNodes (zones nodesPerZone : Int) (i j : Nat)
    (hi : (i : Int) < zones) (hj : (j : Int) < nodesPerZone) :
    (renderNodes zones nodesPerZone)[1 + i * nodesPerZone.toNat + j]? = some (workerNode i) := by
  rw [renderNodes_eq]
  have h1 : 1 + i * nodesPerZone.toNat + j = (i * nodesPerZone.toNat + j) + 1 := by omega
  rw [h1, List.getElem?_cons_succ]
  exact getElem?_workerBlocks _ _ i j (by omega) (by omega)

/-- C1: for `zones ≥ 0` and `nodesPerZone ≥ 0`, `renderNodes` returns exactly
`1 + zones * nodesPerZone` nodes; `renderNodes 0 5` and `renderNodes 5 0` return one node. -/
theorem renderNodes_length (zones nodesPerZone : Int) (hz : 0 ≤ zones) (hn : 0 ≤ nodesPerZone) :
    ((renderNodes zones nodesPerZone).length : Int) = 1 + zones * nodesPerZone
      ∧ (renderNodes 0 5).length = 1 ∧ (renderNodes 5 0).length = 1 := by
  refine ⟨?_, by decide, by decide⟩
  rw [renderNodes_eq, List.length_cons, length_workerBlocks]
  push_cast
  rw [Int.toNat_of_nonneg hz, Int.toNat_of_nonneg hn]
  ring

theorem renderNodes_length_witness :
    (0 : Int) ≤ 3 ∧ (0 : Int) ≤ 2 ∧ ((renderNodes 3 2).length : Int) = 1 + 3 * 2 :=
  ⟨by decide, by decide, (renderNodes_length 3 2 (by decide) (by decide)).1⟩

/-- C2: the first node of `renderNodes zones nodesPerZone` has the control-plane role, every
later node has the worker role, so exactly one control-plane node is produced. -/
theorem renderNodes_roles (zones nodesPerZone : Int) :
    ∃ first rest, renderNodes zones nodesPerZone = first :: rest
      ∧ first.Role = NodeRole.ControlPlaneRole
      ∧ (∀ n ∈ rest, n.Role = NodeRole.WorkerRole)
      ∧ ((renderNodes zones nodesPerZone).filter
          (fun n => decide (n.Role = NodeRole.ControlPlaneRole))).length = 1 := by
  refine ⟨controlPlaneNode 0, workerBlocks nodesPerZone.toNat zones.toNat,
    renderNodes_eq zones nodesPerZone, rfl, ?_, ?_⟩
  · intro n hn
    exact role_of_mem_workerBlocks _ _ n hn
  · rw [renderNodes_eq]
    have hnil : (workerBlocks nodesPerZone.toNat zones.toNat).filter
        (fun n => decide (n.Role = NodeRole.ControlPlaneRole)) = [] := by
      rw [List.filter_eq_nil_iff]
      intro n hn
      simp [role_of_mem_workerBlocks _ _ n hn]
    rw [List.filter_cons_of_pos (by simp [controlPlaneNode]), hnil]
    rfl

/-- C3: the worker at position `1 + i * nodesPerZone + j` of `renderNodes zones nodesPerZone`
carries the zone label `"zone-workers-<i>"`; two workers carry the same zone label exactly when
their zone indices are equal. -/
theorem renderNodes_worker_zone (zones nodesPerZone : Int) (i j : Nat)
    (hi : (i : Int) < zones) (hj : (j : Int) < nodesPerZone) :
    ((renderNodes zones nodesPerZone)[1 + i * nodesPerZone.toNat + j]?).map
        (fun n => (n.Role, n.Labels))
      = some (NodeRole.WorkerRole, [(topologyLabelZone, "zone-workers-" ++ toString (i : Int))])
    ∧ ∀ (i2 j2 : Nat), (i2 : Int) < zones → (j2 : Int) < nodesPerZone →
        (((renderNodes zones nodesPerZone)[1 + i * nodesPerZone.toNat + j]?).bind zoneLabel
            = ((renderNodes zones nodesPerZone)[1 + i2 * nodesPerZone.toNat + j2]?).bind zoneLabel
          ↔ i = i2) := by
  constructor
  · rw [getElem?_renderNodes zones nodesPerZone i j hi hj]
    simp [workerNode, Sprintf_worker]
  · intro i2 j2 hi2 hj2
    rw [getElem?_renderNodes zones nodesPerZone i j hi hj,
      getElem?_renderNodes zones nodesPerZone i2 j2 hi2 hj2]
    have hz : ∀ k : Nat, zoneLabel (workerNode k) = some (Sprintf topologyZoneWorker k) := by
      intro k
      simp [zoneLabel, workerNode, List.lookup]
    simp only [Option.some_bind, hz, Option.some.injEq]
    constructor
    · exact Sprintf_worker_injective i i2
    · intro h; rw [h]

theorem renderNodes_worker_zone_witness :
    ((1 : Nat) : Int) < 2 ∧ ((2 : Nat) : Int) < 3
      ∧ ((renderNodes 2 3)[1 + 1 * (3 : Int).toNat + 2]?).map (fun n => (n.Role, n.Labels))
          = some (NodeRole.WorkerRole,
              [(topologyLabelZone, "zone-workers-" ++ toString ((1 : Nat) : Int))])
      ∧ "zone-workers-" ++ toString ((1 : Nat) : Int) = "zone-workers-1" :=
  ⟨by decide, by decide, (renderNodes_worker_zone 2 3 1 2 (by decide) (by decide)).1, by decide⟩

/-! ## The daemon's calls -/

theorem nextFault_of_no_faults (d : Docker) (h : ∀ f ∈ d.faults, f = none) :
    d.nextFault = none := by
  unfold Docker.nextFault
  split
  · rename_i f rest hf
    exact h f (by simp [hf])
  · rfl

theorem no_faults_tail (d : Docker) (h : ∀ f ∈ d.faults, f = none) :
    ∀ f ∈ d.faults.tail, f = none :=
  fun f hf => h f (List.mem_of_mem_tail hf)

theorem NetworkList_log (d : Docker) :
    d.NetworkList.2.log = d.log ++ [⟨APICall.NetworkList, d.networks, d.NetworkList.1.2⟩] := by
  unfold Docker.NetworkList
  cases d.nextFault <;> rfl

theorem NetworkList_frame (d : Docker) :
    d.NetworkList.2.networks = d.networks ∧ d.NetworkList.2.clientErr = d.clientErr
      ∧ d.NetworkList.2.faults = d.faults.tail := by
  unfold Docker.NetworkList
  cases d.nextFault <;> simp

theorem NetworkList_ok (d : Docker) (h : d.NetworkList.1.2 = none) :
    d.NetworkList.1.1 = d.networks := by
  unfold Docker.NetworkList at h ⊢
  cases hf : d.nextFault <;> simp [hf] at h ⊢

theorem NetworkList_err (d : Docker) (e : Err) (h : d.NetworkList.1.2 = some e) :
    d.NetworkList.1.1 = [] ∧ ∃ msg, e = Err.daemon msg ∧ d.nextFault = some msg := by
  unfold Docker.NetworkList at h ⊢
  cases hf : d.nextFault <;> simp [hf] at h ⊢
  exact h.symm

theorem NetworkList_total (d : Docker) (h : ∀ f ∈ d.faults, f = none) :
    d.NetworkList.1.2 = none := by
  unfold Docker.NetworkList
  rw [nextFault_of_no_faults d h]

theorem NetworkRemove_log (d : Docker) (id : String) :
    (d.NetworkRemove id).2.log
      = d.log ++ [⟨APICall.NetworkRemove id, d.networks, (d.NetworkRemove id).1⟩] := by
  unfold Docker.NetworkRemove
  cases d.nextFault
  · by_cases hany : d.networks.any (fun n => n.ID == id) <;> simp [hany]
  · rfl

theorem NetworkRemove_frame (d : Docker) (id : String) :
    (d.NetworkRemove id).2.clientErr = d.clientErr
      ∧ (d.NetworkRemove id).2.faults = d.faults.tail := by
  unfold Docker.NetworkRemove
  cases d.nextFault
  · by_cases hany : d.networks.any (fun n => n.ID == id) <;> simp [hany]
  · simp

theorem NetworkRemove_ok (d : Docker) (id : String) (h : (d.NetworkRemove id).1 = none) :
    (d.NetworkRemove id).2.networks = d.networks.filter (fun n => n.ID != id) := by
  unfold Docker.NetworkRemove at h ⊢
  cases hf : d.nextFault
  · by_cases hany : d.networks.any (fun n => n.ID == id)
    · simp [hany]
    · simp [hf, hany] at h
  · simp [hf] at h

theorem NetworkRemove_total (d : Docker) (id : String) (h : ∀ f ∈ d.faults, f = none)
    (hid : ∃ n ∈ d.networks, n.ID = id) : (d.NetworkRemove id).1 = none := by
  unfold Docker.NetworkRemove
  rw [nextFault_of_no_faults d h]
  have hany : d.networks.any (fun n => n.ID == id) = true := by
    obtain ⟨n, hn, hnid⟩ := hid
    exact List.any_eq_true.mpr ⟨n, hn, by simp [hnid]⟩
  simp only [hany, if_true]

theorem deleteNetwork_eq (d : Docker) (name id : String) :
    deleteNetwork d name id = d.NetworkRemove id := by
  unfold deleteNetwork
  rcases h : d.NetworkRemove id with ⟨err, d2⟩
  cases err <;> rfl

theorem NetworkCreate_log (d : Docker) (name : String) (o : CreateOptions) :
    (d.NetworkCreate name o).2.log
      = d.log ++ [⟨APICall.NetworkCreate name o, d.networks, (d.NetworkCreate name o).1.2⟩] := by
  unfold Docker.NetworkCreate
  cases d.nextFault
  · by_cases hany : d.networks.any (fun n => n.Name == name) <;> simp [hany]
  · rfl

theorem NetworkCreate_ok (d : Docker) (name : String) (o : CreateOptions)
    (h : (d.NetworkCreate name o).1.2 = none) :
    (d.NetworkCreate name o).2.networks = d.networks ++ [⟨(d.NetworkCreate name o).1.1, name⟩]
      ∧ (d.NetworkCreate name o).1.1 = freshID d.networks := by
  unfold Docker.NetworkCreate at h ⊢
  cases hf : d.nextFault
  · by_cases hany : d.networks.any (fun n => n.Name == name)
    · simp [hf, hany] at h
    · simp [hany]
  · simp [hf] at h

theorem NetworkCreate_err (d : Docker) (name : String) (o : CreateOptions) (e : Err)
    (h : (d.NetworkCreate name o).1.2 = some e) :
    (d.NetworkCreate name o).1.1 = ""
      ∧ ((∃ msg, e = Err.daemon msg)
          ∨ (e = Err.nameConflict name ∧ ∃ n ∈ d.networks, n.Name = name)) := by
  unfold Docker.NetworkCreate at h ⊢
  cases hf : d.nextFault
  · by_cases hany : d.networks.any (fun n => n.Name == name)
    · simp only [hf, hany, if_true, Option.some.injEq] at h
      obtain ⟨n, hn, hname⟩ := List.any_eq_true.mp hany
      simp only [hany, if_true]
      exact ⟨trivial, Or.inr ⟨h.symm, n, hn, by simpa using hname⟩⟩
    · simp [hf, hany] at h
  · simp only [hf, Option.some.injEq] at h
    exact ⟨rfl, Or.inl ⟨_, h.symm⟩⟩

theorem NetworkCreate_total (d : Docker) (name : String) (o : CreateOptions)
    (h : ∀ f ∈ d.faults, f = none) (hname : ∀ n ∈ d.networks, n.Name ≠ name) :
    (d.NetworkCreate name o).1.2 = none := by
  unfold Docker.NetworkCreate
  rw [nextFault_of_no_faults d h]
  have hany : ¬ (d.networks.any (fun n => n.Name == name) = true) := by
    intro hany
    obtain ⟨n, hn, hnn⟩ := List.any_eq_true.mp hany
    exact absurd (by simpa using hnn) (hname n hn)
  simp [hany]

theorem NetworkCreate_frame (d : Docker) (name : String) (o : CreateOptions) :
    (d.NetworkCreate name o).2.clientErr = d.clientErr
      ∧ (d.NetworkCreate name o).2.faults = d.faults.tail := by
  unfold Docker.NetworkCreate
  cases d.nextFault
  · by_cases hany : d.networks.any (fun n => n.Name == name) <;> simp [hany]
  · simp

/-! ## The duplicate-removal loop -/

theorem deleteDuplicates_cons_skip (name : String) (net : Network) (rest : List Network)
    (d : Docker) (h : net.Name ≠ name) :
    deleteDuplicates name (net :: rest) d = deleteDuplicates name rest d := by
  simp [deleteDuplicates, h]

theorem deleteDuplicates_cons_fail (name : String) (net : Network) (rest : List Network)
    (d : Docker) (e : Err) (h : net.Name = name) (hr : (d.NetworkRemove net.ID).1 = some e) :
    deleteDuplicates name (net :: rest) d = (some e, (d.NetworkRemove net.ID).2) := by
  rw [deleteDuplicates]
  simp only [h, beq_self_eq_true, if_true, deleteNetwork_eq]
  rcases hx : d.NetworkRemove net.ID with ⟨err, d2⟩
  rw [hx] at hr
  simp only at hr
  subst hr
  rfl

theorem deleteDuplicates_cons_ok (name : String) (net : Network) (rest : List Network)
    (d : Docker) (h : net.Name = name) (hr : (d.NetworkRemove net.ID).1 = none) :
    deleteDuplicates name (net :: rest) d
      = deleteDuplicates name rest (d.NetworkRemove net.ID).2 := by
  rw [deleteDuplicates]
  simp only [h, beq_self_eq_true, if_true, deleteNetwork_eq]
  rcases hx : d.NetworkRemove net.ID with ⟨err, d2⟩
  rw [hx] at hr
  simp only at hr
  subst hr
  rfl

theorem deleteDuplicates_spec (name : String) :
    ∀ (l : List Network) (d : Docker), ∃ evs : List APIEvent,
      (deleteDuplicates name l d).2.log = d.log ++ evs
      ∧ (deleteDuplicates name l d).2.clientErr = d.clientErr
      ∧ (deleteDuplicates name l d).2.faults = d.faults.drop evs.length
      ∧ (∀ ev ∈ evs, ∃ net ∈ l, net.Name = name ∧ ev.call = APICall.NetworkRemove net.ID)
      ∧ ((deleteDuplicates name l d).1 = none →
          (∀ ev ∈ evs, ev.err = none)
          ∧ evs.map (fun ev => ev.call)
              = (named name l).map (fun n => APICall.NetworkRemove n.ID)
          ∧ (deleteDuplicates name l d).2.networks
              = d.networks.filter (fun n => !(named name l).any (fun m => m.ID == n.ID)))
      ∧ (∀ e, (deleteDuplicates name l d).1 = some e →
          ∃ pre last, evs = pre ++ [last] ∧ last.err = some e ∧ (∀ ev ∈ pre, ev.err = none)) := by
  intro l
  induction l with
  | nil =>
    intro d
    refine ⟨[], ?_⟩
    simp [deleteDuplicates, named]
  | cons net rest ih =>
    intro d
    by_cases hname : net.Name = name
    · cases hr : (d.NetworkRemove net.ID).1 with
      | some e =>
        rw [deleteDuplicates_cons_fail name net rest d e hname hr]
        refine ⟨[⟨APICall.NetworkRemove net.ID, d.networks, some e⟩], ?_, ?_, ?_, ?_, ?_, ?_⟩
        · rw [NetworkRemove_log, hr]
        · exact (NetworkRemove_frame d net.ID).1
        · rw [(NetworkRemove_frame d net.ID).2]; simp
        · intro ev hev
          simp only [List.mem_singleton] at hev
          exact ⟨net, by simp, hname, by rw [hev]⟩
        · intro h; simp at h
        · intro e2 he2
          simp only [Option.some.injEq] at he2
          exact ⟨[], _, rfl, by rw [he2], by simp⟩
      | none =>
        rw [deleteDuplicates_cons_ok name net rest d hname hr]
        obtain ⟨evs, hlog, hcl, hfa, hcalls, hok, herr⟩ := ih (d.NetworkRemove net.ID).2
        refine ⟨⟨APICall.NetworkRemove net.ID, d.networks, none⟩ :: evs, ?_, ?_, ?_, ?_, ?_, ?_⟩
        · rw [hlog, NetworkRemove_log, hr]; simp
        · rw [hcl]; exact (NetworkRemove_frame d net.ID).1
        · rw [hfa, (NetworkRemove_frame d net.ID).2]
          simp [List.drop_drop, Nat.add_comm]
        · intro ev hev
          rcases List.mem_cons.mp hev with h | h
          · exact ⟨net, by simp, hname, by rw [h]⟩
          · obtain ⟨n, hn, hnn, hc⟩ := hcalls ev h
            exact ⟨n, List.mem_cons_of_mem _ hn, hnn, hc⟩
        · intro hnone
          obtain ⟨h1, h2, h3⟩ := hok hnone
          refine ⟨?_, ?_, ?_⟩
          · intro ev hev
            rcases List.mem_cons.mp hev with h | h
            · rw [h]
            · exact h1 ev h
          · simp [named, hname, List.filter_cons] 
            simpa [named] using h2
          · rw [h3, NetworkRemove_ok d net.ID hr, List.filter_filter]
            apply List.filter_congr
            intro n _
            simp only [named, hname, List.filter_cons, beq_self_eq_true, if_true, List.any_cons]
            by_cases hid : net.ID = n.ID
            · simp [hid]
            · have hb1 : (n.ID != net.ID) = true := by
                simpa using fun h : n.ID = net.ID => hid h.symm
              have hb2 : (net.ID == n.ID) = false := by simpa using hid
              rw [hb1, hb2]
              simp
        · intro e he
          obtain ⟨pre, last, hev, hl, hp⟩ := herr e he
          refine ⟨⟨APICall.NetworkRemove net.ID, d.networks, none⟩ :: pre, last, ?_, hl, ?_⟩
          · rw [hev]; rfl
          · intro ev hev
            rcases List.mem_cons.mp hev with h | h
            · rw [h]
            · exact hp ev h
    · rw [deleteDuplicates_cons_skip name net rest d hname]
      obtain ⟨evs, hlog, hcl, hfa, hcalls, hok, herr⟩ := ih d
      refine ⟨evs, hlog, hcl, hfa, ?_, ?_, herr⟩
      · intro ev hev
        obtain ⟨n, hn, hnn, hc⟩ := hcalls ev hev
        exact ⟨n, List.mem_cons_of_mem _ hn, hnn, hc⟩
      · intro hnone
        have hn2 : (net.Name == name) = false := by simpa using hname
        simpa [named, List.filter_cons, hn2] using hok hnone

theorem deleteDuplicates_total (name : String) :
    ∀ (l : List Network) (d : Docker), (l.map (fun n => n.ID)).Nodup →
      (∀ n ∈ l, n.Name = name → ∃ m ∈ d.networks, m.ID = n.ID) →
      (∀ f ∈ d.faults, f = none) → (deleteDuplicates name l d).1 = none := by
  intro l
  induction l with
  | nil => intro d _ _ _; rfl
  | cons net rest ih =>
    intro d hnd hmem hf
    rw [List.map_cons, List.nodup_cons] at hnd
    by_cases hname : net.Name = name
    · have hr := NetworkRemove_total d net.ID hf (hmem net (by simp) hname)
      rw [deleteDuplicates_cons_ok name net rest d hname hr]
      apply ih _ hnd.2
      · intro n hn hnn
        obtain ⟨m, hm, hmid⟩ := hmem n (List.mem_cons_of_mem _ hn) hnn
        refine ⟨m, ?_, hmid⟩
        rw [NetworkRemove_ok d net.ID hr, List.mem_filter]
        refine ⟨hm, ?_⟩
        have hne : m.ID ≠ net.ID := by
          intro heq
          apply hnd.1
          rw [← heq, hmid]
          exact List.mem_map_of_mem _ hn
        simpa using hne
      · rw [(NetworkRemove_frame d net.ID).2]
        exact no_faults_tail d hf
    · rw [deleteDuplicates_cons_skip name net rest d hname]
      exact ih d hnd.2 (fun n hn hnn => hmem n (List.mem_cons_of_mem _ hn) hnn) hf

/-! ## `createNetwork` and `ensureNetwork`, stage by stage -/

theorem NetworkCreate_normal (d : Docker) (name : String) (o : CreateOptions) :
    (match (d.NetworkCreate name o).1.2 with
      | some err => (("", some err), (d.NetworkCreate name o).2)
      | none => (((d.NetworkCreate name o).1.1, none), (d.NetworkCreate name o).2))
      = d.NetworkCreate name o := by
  cases h : (d.NetworkCreate name o).1.2 with
  | none =>
    apply Prod.ext
    · apply Prod.ext
      · rfl
      · exact h.symm
    · rfl
  | some e =>
    have hid := (NetworkCreate_err d name o e h).1
    apply Prod.ext
    · apply Prod.ext
      · exact hid.symm
      · exact h.symm
    · rfl

theorem createNetwork_eq (lib : NetLib) (d : Docker) (name subnet : String) (masquerade : Bool) :
    createNetwork lib d name subnet masquerade
      = match createOptions lib name subnet masquerade with
        | Except.error err => (("", some err), d)
        | Except.ok o => d.NetworkCreate name o := by
  unfold createNetwork createOptions
  by_cases hs : subnet = ""
  · simp only [hs, bne_self_eq_false, Bool.false_eq_true, if_false]
    exact NetworkCreate_normal d name _
  · have hb : (subnet != "") = true := by simpa using hs
    simp only [hb, if_true]
    cases hp : ParseCIDR lib subnet with
    | error e => rfl
    | ok r =>
      obtain ⟨ip, cidr⟩ := r
      simp only [List.nil_append]
      exact NetworkCreate_normal d name _

theorem ensureNetwork_cases (lib : NetLib) (d : Docker) (name subnet : String)
    (masquerade : Bool) :
    (∃ msg, d.clientErr = some msg
        ∧ ensureNetwork lib d name subnet masquerade = (("", some (Err.client msg)), d))
    ∨ (d.clientErr = none ∧ ∃ e, d.NetworkList.1.2 = some e
        ∧ ensureNetwork lib d name subnet masquerade = (("", some e), d.NetworkList.2))
    ∨ (d.clientErr = none ∧ d.NetworkList.1.2 = none
        ∧ ∃ e, (deleteDuplicates name d.networks d.NetworkList.2).1 = some e
        ∧ ensureNetwork lib d name subnet masquerade
            = (("", some e), (deleteDuplicates name d.networks d.NetworkList.2).2))
    ∨ (d.clientErr = none ∧ d.NetworkList.1.2 = none
        ∧ (deleteDuplicates name d.networks d.NetworkList.2).1 = none
        ∧ ∃ e, createOptions lib name subnet masquerade = Except.error e
        ∧ ensureNetwork lib d name subnet masquerade
            = (("", some e), (deleteDuplicates name d.networks d.NetworkList.2).2))
    ∨ (d.clientErr = none ∧ d.NetworkList.1.2 = none
        ∧ (deleteDuplicates name d.networks d.NetworkList.2).1 = none
        ∧ ∃ o, createOptions lib name subnet masquerade = Except.ok o
        ∧ ensureNetwork lib d name subnet masquerade
            = (deleteDuplicates name d.networks d.NetworkList.2).2.NetworkCreate name o) := by
  unfold ensureNetwork
  cases hc : d.clientErr with
  | some msg => exact Or.inl ⟨msg, rfl, rfl⟩
  | none =>
    right
    rcases hl : d.NetworkList with ⟨⟨networks, lerr⟩, d1⟩
    cases lerr with
    | some e => exact Or.inl ⟨rfl, e, rfl, rfl⟩
    | none =>
      right
      have hnets : networks = d.networks := by
        have := NetworkList_ok d (by rw [hl])
        rw [hl] at this
        exact this
      subst hnets
      simp only
      rcases hd : deleteDuplicates name d.networks d1 with ⟨derr, d2⟩
      cases derr with
      | some e => refine Or.inl ⟨?_, ?_, e, ?_, ?_⟩ <;> first | rfl | trivial
      | none =>
        right
        simp only
        rw [createNetwork_eq]
        cases ho : createOptions lib name subnet masquerade with
        | error e => refine Or.inl ⟨?_, ?_, ?_, e, ?_, ?_⟩ <;> first | rfl | trivial
        | ok o =>
          right
          refine ⟨?_, ?_, ?_, o, ?_, ?_⟩
          · trivial
          · trivial
          · trivial
          · rfl
          · simp only
            exact NetworkCreate_normal d2 name o

theorem newEvents_of_log (d d2 : Docker) (evs : List APIEvent) (h : d2.log = d.log ++ evs) :
    newEvents d d2 = evs := by
  simp [newEvents, h]

theorem le_foldr_max (l : List Nat) (x : Nat) (hx : x ∈ l) : x ≤ l.foldr max 0 := by
  induction l with
  | nil => simp at hx
  | cons y ys ih =>
    rcases List.mem_cons.mp hx with h | h
    · simp [h]
    · have := ih h
      simp only [List.foldr_cons]
      exact le_trans this (le_max_right _ _)

theorem freshID_ne (nets : List Network) (n : Network) (hn : n ∈ nets) :
    n.ID ≠ freshID nets := by
  intro h
  have hlen := congrArg String.length h
  have hle : n.ID.length ≤ (nets.map (fun n => n.ID.length)).foldr max 0 :=
    le_foldr_max _ _ (List.mem_map_of_mem (fun n => n.ID.length) hn)
  simp only [freshID, String.length, List.length_replicate] at hlen
  simp only [String.length] at hle
  omega

theorem afterDelete (name : String) (d : Docker) (hl : d.NetworkList.1.2 = none) :
    ∃ evs : List APIEvent,
      (deleteDuplicates name d.networks d.NetworkList.2).2.log
          = d.log ++ ⟨APICall.NetworkList, d.networks, none⟩ :: evs
      ∧ (deleteDuplicates name d.networks d.NetworkList.2).2.clientErr = d.clientErr
      ∧ (deleteDuplicates name d.networks d.NetworkList.2).2.faults
          = d.faults.drop (evs.length + 1)
      ∧ (∀ ev ∈ evs, ∃ net ∈ d.networks, net.Name = name
          ∧ ev.call = APICall.NetworkRemove net.ID)
      ∧ ((deleteDuplicates name d.networks d.NetworkList.2).1 = none →
          (∀ ev ∈ evs, ev.err = none)
          ∧ evs.map (fun ev => ev.call)
              = (named name d.networks).map (fun n => APICall.NetworkRemove n.ID)
          ∧ (deleteDuplicates name d.networks d.NetworkList.2).2.networks
              = d.networks.filter (fun n => !(named name d.networks).any (fun m => m.ID == n.ID))
          ∧ (∀ n ∈ (deleteDuplicates name d.networks d.NetworkList.2).2.networks,
              n.Name ≠ name))
      ∧ (∀ e, (deleteDuplicates name d.networks d.NetworkList.2).1 = some e →
          ∃ pre last, evs = pre ++ [last] ∧ last.err = some e
            ∧ (∀ ev ∈ pre, ev.err = none)) := by
  obtain ⟨evs, hlog, hcl, hfa, hcalls, hok, herr⟩ :=
    deleteDuplicates_spec name d.networks d.NetworkList.2
  obtain ⟨hn1, hc1, hf1⟩ := NetworkList_frame d
  refine ⟨evs, ?_, ?_, ?_, hcalls, ?_, herr⟩
  · rw [hlog, NetworkList_log, hl]; simp
  · rw [hcl, hc1]
  · rw [hfa, hf1]; simp [List.drop_drop, Nat.add_comm]
  · intro hnone
    obtain ⟨h1, h2, h3⟩ := hok hnone
    rw [hn1] at h3
    refine ⟨h1, h2, h3, ?_⟩
    intro n hn hname
    rw [h3, List.mem_filter] at hn
    obtain ⟨hmem, hnot⟩ := hn
    have hany : (named name d.networks).any (fun m => m.ID == n.ID) = true := by
      apply List.any_eq_true.mpr
      refine ⟨n, ?_, by simp⟩
      simp [named, List.mem_filter, hmem, hname]
    simp [hany] at hnot

theorem NetworkRemove_err (d : Docker) (id : String) (e : Err)
    (h : (d.NetworkRemove id).1 = some e) :
    (∃ msg, e = Err.daemon msg) ∨ e = Err.noSuchNetwork id := by
  unfold Docker.NetworkRemove at h
  cases hf : d.nextFault
  · by_cases hany : d.networks.any (fun n => n.ID == id)
    · simp [hf, hany] at h
    · simp only [hf, hany] at h
      simp only [Bool.false_eq_true, if_false, Option.some.injEq] at h
      exact Or.inr h.symm
  · simp only [hf, Option.some.injEq] at h
    exact Or.inl ⟨_, h.symm⟩

theorem deleteDuplicates_err (name : String) :
    ∀ (l : List Network) (d : Docker) (e : Err), (deleteDuplicates name l d).1 = some e →
      (∃ msg, e = Err.daemon msg) ∨ ∃ id, e = Err.noSuchNetwork id := by
  intro l
  induction l with
  | nil => intro d e h; simp [deleteDuplicates] at h
  | cons net rest ih =>
    intro d e h
    by_cases hname : net.Name = name
    · cases hr : (d.NetworkRemove net.ID).1 with
      | some e2 =>
        rw [deleteDuplicates_cons_fail name net rest d e2 hname hr] at h
        simp only [Option.some.injEq] at h
        subst h
        rcases NetworkRemove_err d net.ID e2 hr with h1 | h1
        · exact Or.inl h1
        · exact Or.inr ⟨_, h1⟩
      | none =>
        rw [deleteDuplicates_cons_ok name net rest d hname hr] at h
        exact ih _ e h
    · rw [deleteDuplicates_cons_skip name net rest d hname] at h
      exact ih d e h

theorem ParseCIDR_error (lib : NetLib) (s : String) (e : Err)
    (h : ParseCIDR lib s = Except.error e) : e = Err.parseCIDR s := by
  unfold ParseCIDR at h
  simp only at h
  split at h
  · simp only [Except.error.injEq] at h; exact h.symm
  · split at h
    · simp only [Except.error.injEq] at h; exact h.symm
    · split at h
      · simp only [Except.error.injEq] at h; exact h.symm
      · split at h
        · simp only [Except.error.injEq] at h; exact h.symm
        · simp at h

theorem createOptions_error (lib : NetLib) (name subnet : String) (masquerade : Bool) (e : Err)
    (h : createOptions lib name subnet masquerade = Except.error e) :
    subnet ≠ "" ∧ ParseCIDR lib subnet = Except.error e ∧ e = Err.parseCIDR subnet := by
  unfold createOptions at h
  by_cases hs : subnet = ""
  · simp [hs] at h
  · have hb : (subnet != "") = true := by simpa using hs
    simp only [hb, if_true] at h
    cases hp : ParseCIDR lib subnet with
    | error e2 =>
      rw [hp] at h
      simp only [Except.error.injEq] at h
      subst h
      exact ⟨hs, rfl, ParseCIDR_error lib subnet e2 hp⟩
    | ok r =>
      rw [hp] at h
      simp at h

theorem ensureNetwork_call (lib : NetLib) (d : Docker) (name subnet : String)
    (masquerade : Bool) :
    (∀ ev ∈ newEvents d (ensureNetwork lib d name subnet masquerade).2,
        ev.call.isCreate = true → ∀ n ∈ ev.before, n.Name ≠ name)
    ∧ (ensureNetwork lib d name subnet masquerade).1.2 ≠ some (Err.nameConflict name)
    ∧ ((ensureNetwork lib d name subnet masquerade).1.2 = none →
        ∃ o, createOptions lib name subnet masquerade = Except.ok o
          ∧ (newEvents d (ensureNetwork lib d name subnet masquerade).2).map
                (fun ev => (ev.call, ev.err))
              = (APICall.NetworkList, none)
                  :: ((named name d.networks).map (fun n => (APICall.NetworkRemove n.ID, none))
                      ++ [(APICall.NetworkCreate name o, none)])
          ∧ named name (ensureNetwork lib d name subnet masquerade).2.networks
              = [⟨(ensureNetwork lib d name subnet masquerade).1.1, name⟩]
          ∧ (ensureNetwork lib d name subnet masquerade).2.clientErr = d.clientErr
          ∧ (∀ f ∈ (ensureNetwork lib d name subnet masquerade).2.faults, f ∈ d.faults)
          ∧ ((d.networks.map (fun n => n.ID)).Nodup →
              ((ensureNetwork lib d name subnet masquerade).2.networks.map
                (fun n => n.ID)).Nodup))
    ∧ (d.clientErr = none → (∀ f ∈ d.faults, f = none) →
        (d.networks.map (fun n => n.ID)).Nodup →
        (∃ o, createOptions lib name subnet masquerade = Except.ok o) →
        (ensureNetwork lib d name subnet masquerade).1.2 = none) := by
  rcases ensureNetwork_cases lib d name subnet masquerade with
    ⟨msg, hc, hr⟩ | ⟨hc, e, hl, hr⟩ | ⟨hc, hl, e, hd, hr⟩ | ⟨hc, hl, hd, e, ho, hr⟩
      | ⟨hc, hl, hd, o, ho, hr⟩
  · rw [hr]
    refine ⟨?_, ?_, ?_, ?_⟩
    · simp [newEvents]
    · simp
    · simp
    · intro hc2; rw [hc] at hc2; simp at hc2
  · rw [hr]
    obtain ⟨-, msg, he, -⟩ := NetworkList_err d e hl
    refine ⟨?_, ?_, ?_, ?_⟩
    · rw [newEvents_of_log d _ _ (NetworkList_log d)]
      intro ev hev
      simp only [List.mem_singleton] at hev
      rw [hev]
      simp [APICall.isCreate]
    · simp [he]
    · simp
    · intro _ hf _ _
      have := NetworkList_total d hf
      rw [hl] at this
      simp at this
  · rw [hr]
    obtain ⟨evs, hlog, hcl, hfa, hcalls, hok, herr⟩ := afterDelete name d hl
    refine ⟨?_, ?_, ?_, ?_⟩
    · rw [newEvents_of_log d _ _ hlog]
      intro ev hev
      rcases List.mem_cons.mp hev with h | h
      · rw [h]; simp [APICall.isCreate]
      · obtain ⟨n, -, -, hcall⟩ := hcalls ev h
        rw [hcall]; simp [APICall.isCreate]
    · rcases deleteDuplicates_err name _ _ e hd with ⟨msg, hm⟩ | ⟨id, hm⟩ <;> simp [hm]
    · simp
    · intro _ hf hnd _
      have := deleteDuplicates_total name d.networks d.NetworkList.2 hnd
        (fun n hn _ => ⟨n, by rw [(NetworkList_frame d).1]; exact hn, rfl⟩)
        (by rw [(NetworkList_frame d).2.2]; exact no_faults_tail d hf)
      rw [hd] at this
      simp at this
  · rw [hr]
    obtain ⟨evs, hlog, hcl, hfa, hcalls, hok, herr⟩ := afterDelete name d hl
    refine ⟨?_, ?_, ?_, ?_⟩
    · rw [newEvents_of_log d _ _ hlog]
      intro ev hev
      rcases List.mem_cons.mp hev with h | h
      · rw [h]; simp [APICall.isCreate]
      · obtain ⟨n, -, -, hcall⟩ := hcalls ev h
        rw [hcall]; simp [APICall.isCreate]
    · simp [(createOptions_error lib name subnet masquerade e ho).2.2]
    · simp
    · intro _ _ _ ⟨o, ho2⟩
      rw [ho] at ho2
      simp at ho2
  · rw [hr]
    obtain ⟨evs, hlog, hcl, hfa, hcalls, hok, herr⟩ := afterDelete name d hl
    obtain ⟨hevok, hevcalls, hnets, hnone⟩ := hok hd
    have hlog2 := NetworkCreate_log (deleteDuplicates name d.networks d.NetworkList.2).2 name o
    rw [hlog] at hlog2
    have hlog3 : ((deleteDuplicates name d.networks d.NetworkList.2).2.NetworkCreate name o).2.log
        = d.log ++ (⟨APICall.NetworkList, d.networks, none⟩ :: (evs ++
            [⟨APICall.NetworkCreate name o,
              (deleteDuplicates name d.networks d.NetworkList.2).2.networks,
              ((deleteDuplicates name d.networks d.NetworkList.2).2.NetworkCreate name o).1.2⟩])) := by
      rw [hlog2]; simp
    refine ⟨?_, ?_, ?_, ?_⟩
    · rw [newEvents_of_log d _ _ hlog3]
      intro ev hev
      rcases List.mem_cons.mp hev with h | h
      · rw [h]; simp [APICall.isCreate]
      · rcases List.mem_append.mp h with h | h
        · obtain ⟨n, -, -, hcall⟩ := hcalls ev h
          rw [hcall]; simp [APICall.isCreate]
        · simp only [List.mem_singleton] at h
          intro _
          rw [h]
          exact hnone
    · intro hconf
      rcases (NetworkCreate_err _ name o _ hconf).2 with ⟨msg, hm⟩ | ⟨-, n, hn, hname⟩
      · simp at hm
      · exact hnone n hn hname
    · intro hsucc
      obtain ⟨hnw, hid⟩ := NetworkCreate_ok _ name o hsucc
      refine ⟨o, ho, ?_, ?_, ?_, ?_, ?_⟩
      · rw [newEvents_of_log d _ _ hlog3, hsucc]
        simp only [List.map_cons, List.map_append, List.map_nil, List.cons.injEq, true_and]
        congr 1
        have h1 : evs.map (fun ev => (ev.call, ev.err))
            = (evs.map (fun ev => ev.call)).map (fun c => (c, (none : Option Err))) := by
          rw [List.map_map]
          apply List.map_congr_left
          intro ev hev
          simp [hevok ev hev]
        rw [h1, hevcalls, List.map_map]
        rfl
      · rw [hnw]
        have hnil : named name (deleteDuplicates name d.networks d.NetworkList.2).2.networks
            = [] := by
          simp only [named, List.filter_eq_nil_iff]
          intro n hn
          simpa using hnone n hn
        simp only [named] at hnil
        simp [named, List.filter_append, hnil]
      · rw [(NetworkCreate_frame _ name o).1, hcl]
      · intro f hf
        rw [(NetworkCreate_frame _ name o).2, hfa] at hf
        exact List.mem_of_mem_drop (List.mem_of_mem_tail hf)
      · intro hnd
        rw [hnw, List.map_append, List.nodup_append]
        refine ⟨?_, by simp, ?_⟩
        · rw [hnets]
          exact hnd.sublist ((List.filter_sublist _).map _)
        · intro a ha hb
          simp only [List.map_cons, List.map_nil, List.mem_singleton] at hb
          obtain ⟨n, hn, hna⟩ := List.mem_map.mp ha
          apply freshID_ne _ n hn
          rw [hna, hb, hid]
    · intro _ hf _ _
      apply NetworkCreate_total
      · intro f hfm
        rw [hfa] at hfm
        exact hf f (List.mem_of_mem_drop hfm)
      · exact hnone

/-- C4: over the network-service model, from any state with unique ids, `ensureNetwork` issues
`NetworkCreate` only when no network named `name` remains, so it never gets a name collision; a
successful call leaves exactly one network named `name`, carrying the returned id, and keeps the
ids unique; a second call in succession gets no name collision either, and when it succeeds its
calls were the list, the removal of the first call's network and the create, leaving again
exactly one network named `name`; both calls do succeed when the client can be built, the daemon
reports no fault and the options can be built. -/
theorem ensureNetwork_one_network (lib : NetLib) (d : Docker) (name subnet : String)
    (masquerade : Bool) (hunique : (d.networks.map (fun n => n.ID)).Nodup) :
    (∀ ev ∈ newEvents d (ensureNetwork lib d name subnet masquerade).2,
        ev.call.isCreate = true → ∀ n ∈ ev.before, n.Name ≠ name)
    ∧ (ensureNetwork lib d name subnet masquerade).1.2 ≠ some (Err.nameConflict name)
    ∧ ((ensureNetwork lib d name subnet masquerade).1.2 = none →
        named name (ensureNetwork lib d name subnet masquerade).2.networks
            = [⟨(ensureNetwork lib d name subnet masquerade).1.1, name⟩]
        ∧ ((ensureNetwork lib d name subnet masquerade).2.networks.map (fun n => n.ID)).Nodup
        ∧ (ensureNetwork lib (ensureNetwork lib d name subnet masquerade).2
              name subnet masquerade).1.2 ≠ some (Err.nameConflict name)
        ∧ ((ensureNetwork lib (ensureNetwork lib d name subnet masquerade).2
              name subnet masquerade).1.2 = none →
            (∃ o, createOptions lib name subnet masquerade = Except.ok o
              ∧ (newEvents (ensureNetwork lib d name subnet masquerade).2
                  (ensureNetwork lib (ensureNetwork lib d name subnet masquerade).2
                    name subnet masquerade).2).map (fun ev => (ev.call, ev.err))
                = [(APICall.NetworkList, none),
                   (APICall.NetworkRemove (ensureNetwork lib d name subnet masquerade).1.1, none),
                   (APICall.NetworkCreate name o, none)])
            ∧ named name (ensureNetwork lib (ensureNetwork lib d name subnet masquerade).2
                name subnet masquerade).2.networks
              = [⟨(ensureNetwork lib (ensureNetwork lib d name subnet masquerade).2
                    name subnet masquerade).1.1, name⟩]))
    ∧ (d.clientErr = none → (∀ f ∈ d.faults, f = none) →
        (∃ o, createOptions lib name subnet masquerade = Except.ok o) →
        (ensureNetwork lib d name subnet masquerade).1.2 = none
        ∧ (ensureNetwork lib (ensureNetwork lib d name subnet masquerade).2
              name subnet masquerade).1.2 = none) := by
  obtain ⟨hA, hB, hC, hD⟩ := ensureNetwork_call lib d name subnet masquerade
  refine ⟨hA, hB, ?_, ?_⟩
  · intro hs
    obtain ⟨o, ho, hev, hnamed, hcl, hfa, hnd⟩ := hC hs
    obtain ⟨-, hB2, hC2, -⟩ :=
      ensureNetwork_call lib (ensureNetwork lib d name subnet masquerade).2 name subnet masquerade
    refine ⟨hnamed, hnd hunique, hB2, ?_⟩
    intro hs2
    obtain ⟨o2, ho2, hev2, hnamed2, -⟩ := hC2 hs2
    refine ⟨⟨o2, ho2, ?_⟩, hnamed2⟩
    rw [hev2, hnamed]
    rfl
  · intro hc hf hopt
    have h1 := hD hc hf hunique hopt
    obtain ⟨o, ho, hev, hnamed, hcl, hfa, hnd⟩ := hC h1
    refine ⟨h1, ?_⟩
    exact (ensureNetwork_call lib _ name subnet masquerade).2.2.2 (by rw [hcl]; exact hc)
      (fun f hf2 => hf f (hfa f hf2)) (hnd hunique) hopt

theorem ensureNetwork_one_network_witness :
    (exampleDocker.networks.map (fun n => n.ID)).Nodup
      ∧ named "kmz-kind-multizone"
          (ensureNetwork exampleLib exampleDocker "kmz-kind-multizone" "" true).2.networks
        = [⟨(ensureNetwork exampleLib exampleDocker "kmz-kind-multizone" "" true).1.1,
            "kmz-kind-multizone"⟩] :=
  ⟨by decide,
    ((ensureNetwork_one_network exampleLib exampleDocker "kmz-kind-multizone" "" true
      (by decide)).2.2.1 (by decide)).1⟩

/-! ## Failures of the network stage -/

theorem ensureNetwork_listErr (lib : NetLib) (d : Docker) (name subnet : String)
    (masquerade : Bool) (e : Err) (hc : d.clientErr = none) (hl : d.NetworkList.1.2 = some e) :
    ensureNetwork lib d name subnet masquerade = (("", some e), d.NetworkList.2) := by
  rcases ensureNetwork_cases lib d name subnet masquerade with
    ⟨msg, hc2, -⟩ | ⟨-, e2, hl2, hr⟩ | ⟨-, hl2, -⟩ | ⟨-, hl2, -⟩ | ⟨-, hl2, -⟩
  · rw [hc] at hc2; simp at hc2
  · rw [hl] at hl2
    simp only [Option.some.injEq] at hl2
    rw [hr, hl2]
  · rw [hl] at hl2; simp at hl2
  · rw [hl] at hl2; simp at hl2
  · rw [hl] at hl2; simp at hl2

/-- C8: if the daemon's list call fails, `ensureNetwork` returns that error, its only call was
the list (no remove, no create) and the networks are untouched; `ensureCluster` then leaves the
environment as it was and sends the provider nothing but its `List` call, and, the flags being
readable, returns the list error. -/
theorem list_failure_aborts (lib : NetLib) (w : World) (flags : Flags) (name subnet : String)
    (masquerade : Bool) (e : Err)
    (hc : w.docker.clientErr = none) (hl : w.docker.NetworkList.1.2 = some e) :
    (ensureNetwork lib w.docker name subnet masquerade).1 = ("", some e)
    ∧ newEvents w.docker (ensureNetwork lib w.docker name subnet masquerade).2
        = [⟨APICall.NetworkList, w.docker.networks, some e⟩]
    ∧ (ensureNetwork lib w.docker name subnet masquerade).2.networks = w.docker.networks
    ∧ (ensureCluster lib flags w).2.env = w.env
    ∧ (∀ c ∈ (ensureCluster lib flags w).2.provider.log,
        c ∈ w.provider.log ∨ c = ProviderCall.List)
    ∧ (flags.name.2 = none → flags.zones.2 = none → flags.nodesPerZone.2 = none →
        (ensureCluster lib flags w).1 = some e
        ∧ newEvents w.docker (ensureCluster lib flags w).2.docker
            = [⟨APICall.NetworkList, w.docker.networks, some e⟩]) := by
  have hlog : newEvents w.docker w.docker.NetworkList.2
      = [⟨APICall.NetworkList, w.docker.networks, some e⟩] := by
    rw [newEvents_of_log _ _ _ (NetworkList_log w.docker), hl]
  refine ⟨?_, ?_, ?_, ?_, ?_, ?_⟩
  · rw [ensureNetwork_listErr lib w.docker name subnet masquerade e hc hl]
  · rw [ensureNetwork_listErr lib w.docker name subnet masquerade e hc hl]
    exact hlog
  · rw [ensureNetwork_listErr lib w.docker name subnet masquerade e hc hl]
    exact (NetworkList_frame w.docker).1
  · obtain ⟨⟨n, ne⟩, ⟨z, ze⟩, ⟨npz, npze⟩, ⟨r, re⟩⟩ := flags
    unfold ensureCluster
    cases ne <;> cases ze <;> cases npze <;>
      simp [ensureNetwork_listErr lib w.docker _ "" true e hc hl]
  · obtain ⟨⟨n, ne⟩, ⟨z, ze⟩, ⟨npz, npze⟩, ⟨r, re⟩⟩ := flags
    unfold ensureCluster
    cases ne <;> cases ze <;> cases npze <;>
      simp [ensureNetwork_listErr lib w.docker _ "" true e hc hl] <;>
      exact fun c hc2 => Or.inl hc2
  · obtain ⟨⟨n, ne⟩, ⟨z, ze⟩, ⟨npz, npze⟩, ⟨r, re⟩⟩ := flags
    intro h1 h2 h3
    simp only at h1 h2 h3
    subst h1 h2 h3
    unfold ensureCluster
    simp [ensureNetwork_listErr lib w.docker _ "" true e hc hl, hlog]

theorem append_singleton_split (A : List APIEvent) (last : APIEvent)
    (pre : List APIEvent) (ev : APIEvent) (post : List APIEvent)
    (h : A ++ [last] = pre ++ ev :: post) (hA : ∀ x ∈ A, x.err = none)
    (hev : ev.err ≠ none) : post = [] ∧ ev = last := by
  rcases List.eq_nil_or_concat post with hp | ⟨post2, p, hp⟩
  · subst hp
    have h2 := List.append_inj' h (by simp)
    simp only [List.cons.injEq, and_true] at h2
    exact ⟨rfl, h2.2.symm⟩
  · subst hp
    have h3 : A ++ [last] = (pre ++ ev :: post2) ++ [p] := by
      rw [h]; simp
    have h2 := List.append_inj' h3 (by simp)
    have hmem : ev ∈ A := by rw [h2.1]; simp
    exact absurd (hA ev hmem) hev

/-- C9: if a `NetworkRemove` issued by `ensureNetwork` fails, then `ensureNetwork` returns that
error with an empty id, the failed removal is its last call (no later removal), it was the removal
of a network named `name`, and no `NetworkCreate` is issued. -/
theorem remove_failure_aborts (lib : NetLib) (d : Docker) (name subnet : String)
    (masquerade : Bool) (pre : List APIEvent) (ev : APIEvent) (post : List APIEvent) (e : Err)
    (hsplit : newEvents d (ensureNetwork lib d name subnet masquerade).2 = pre ++ ev :: post)
    (hrem : ev.call.isRemove = true) (herr : ev.err = some e) :
    (ensureNetwork lib d name subnet masquerade).1 = ("", some e)
    ∧ post = []
    ∧ (∀ ev2 ∈ newEvents d (ensureNetwork lib d name subnet masquerade).2,
        ev2.call.isCreate = false)
    ∧ (∃ n ∈ d.networks, n.Name = name ∧ ev.call = APICall.NetworkRemove n.ID) := by
  have hevne : ev.err ≠ none := by rw [herr]; simp
  rcases ensureNetwork_cases lib d name subnet masquerade with
    ⟨msg, hc, hr⟩ | ⟨hc, e2, hl, hr⟩ | ⟨hc, hl, e2, hd, hr⟩ | ⟨hc, hl, hd, e2, ho, hr⟩
      | ⟨hc, hl, hd, o, ho, hr⟩
  · rw [hr] at hsplit
    simp [newEvents] at hsplit
  · rw [hr, newEvents_of_log d _ _ (NetworkList_log d)] at hsplit
    have hmem : ev ∈ [(⟨APICall.NetworkList, d.networks, d.NetworkList.1.2⟩ : APIEvent)] := by
      rw [hsplit]; simp
    simp only [List.mem_singleton] at hmem
    rw [hmem] at hrem
    simp [APICall.isRemove] at hrem
  · obtain ⟨evs, hlog, hcl, hfa, hcalls, hok, hfail⟩ := afterDelete name d hl
    obtain ⟨pre2, last, hevs, hlast, hpre2⟩ := hfail e2 hd
    rw [hr] at hsplit ⊢
    rw [newEvents_of_log d _ _ hlog] at hsplit ⊢
    have hsplit2 : (⟨APICall.NetworkList, d.networks, none⟩ :: pre2) ++ [last]
        = pre ++ ev :: post := by
      rw [← hsplit, hevs]; simp
    have hA : ∀ x ∈ (⟨APICall.NetworkList, d.networks, none⟩ :: pre2 : List APIEvent),
        x.err = none := by
      intro x hx
      rcases List.mem_cons.mp hx with h | h
      · rw [h]
      · exact hpre2 x h
    obtain ⟨hpost, hevlast⟩ := append_singleton_split _ last pre ev post hsplit2 hA hevne
    have hee : e2 = e := by
      rw [hevlast, hlast] at herr
      simpa using herr
    refine ⟨by rw [hee], hpost, ?_, ?_⟩
    · intro ev2 hev2
      rcases List.mem_cons.mp hev2 with h | h
      · rw [h]; rfl
      · obtain ⟨n, -, -, hcall⟩ := hcalls ev2 h
        rw [hcall]; rfl
    · apply hcalls ev
      rw [hevlast, hevs]
      simp
  · obtain ⟨evs, hlog, hcl, hfa, hcalls, hok, hfail⟩ := afterDelete name d hl
    rw [hr, newEvents_of_log d _ _ hlog] at hsplit
    have hmem : ev ∈ (⟨APICall.NetworkList, d.networks, none⟩ :: evs : List APIEvent) := by
      rw [hsplit]; simp
    rcases List.mem_cons.mp hmem with h | h
    · rw [h] at hevne; simp at hevne
    · exact absurd ((hok hd).1 ev h) hevne
  · obtain ⟨evs, hlog, hcl, hfa, hcalls, hok, hfail⟩ := afterDelete name d hl
    have hlog2 := NetworkCreate_log (deleteDuplicates name d.networks d.NetworkList.2).2 name o
    rw [hlog, List.append_assoc] at hlog2
    rw [hr, newEvents_of_log d _ _ hlog2] at hsplit
    have hmem : ev ∈ (⟨APICall.NetworkList, d.networks, none⟩ :: evs : List APIEvent)
        ++ [⟨APICall.NetworkCreate name o,
              (deleteDuplicates name d.networks d.NetworkList.2).2.networks,
              ((deleteDuplicates name d.networks d.NetworkList.2).2.NetworkCreate name o).1.2⟩] := by
      rw [hsplit]; simp
    rcases List.mem_append.mp hmem with h | h
    · rcases List.mem_cons.mp h with h | h
      · rw [h] at hevne; simp at hevne
      · exact absurd ((hok hd).1 ev h) hevne
    · simp only [List.mem_singleton] at h
      rw [h] at hrem
      simp [APICall.isRemove] at hrem

theorem list_failure_aborts_witness :
    exampleWorldListFails.docker.clientErr = none
      ∧ exampleWorldListFails.docker.NetworkList.1.2
          = some (Err.daemon "Cannot connect to the Docker daemon")
      ∧ (ensureCluster exampleLib exampleFlags exampleWorldListFails).2.env
          = exampleWorldListFails.env :=
  ⟨rfl, rfl,
    (list_failure_aborts exampleLib exampleWorldListFails exampleFlags "kmz-kind-multizone" ""
      true (Err.daemon "Cannot connect to the Docker daemon") rfl rfl).2.2.2.1⟩

theorem remove_failure_aborts_witness :
    (ensureNetwork exampleLib exampleDockerRemoveFails "kmz-kind-multizone" "" true).1
      = ("", some (Err.daemon "network has active endpoints")) :=
  (remove_failure_aborts exampleLib exampleDockerRemoveFails "kmz-kind-multizone" "" true
    [⟨APICall.NetworkList, exampleDocker.networks, none⟩,
     ⟨APICall.NetworkRemove "77c2", exampleDocker.networks, none⟩]
    ⟨APICall.NetworkRemove "9be4", [⟨"1f0a", "bridge"⟩, ⟨"9be4", "kmz-kind-multizone"⟩],
      some (Err.daemon "network has active endpoints")⟩
    [] (Err.daemon "network has active endpoints") (by decide) rfl rfl).1

theorem createOptions_of_parse_error (lib : NetLib) (name subnet : String) (masquerade : Bool)
    (e : Err) (hne : subnet ≠ "") (hp : ParseCIDR lib subnet = Except.error e) :
    createOptions lib name subnet masquerade = Except.error e := by
  unfold createOptions
  have hb : (subnet != "") = true := by simpa using hne
  simp only [hb, if_true, hp]

/-- C10: for a non-empty subnet that `net.ParseCIDR` rejects, `ensureNetwork` fails with an empty
id and issues no `NetworkCreate`; each of its calls is the list or the removal of a network named
`name`; when the client was built and every call it issued succeeded, the calls are exactly the
list and the removal of each network named `name`, and the error is the parse error; that is
what happens whenever the daemon reports no fault and ids are unique.  `"not-a-cidr"` is
rejected. -/
theorem invalid_subnet_aborts (lib : NetLib) (d : Docker) (name subnet : String)
    (masquerade : Bool) (e : Err) (hne : subnet ≠ "")
    (hparse : ParseCIDR lib subnet = Except.error e) :
    (ensureNetwork lib d name subnet masquerade).1.1 = ""
    ∧ (ensureNetwork lib d name subnet masquerade).1.2 ≠ none
    ∧ (∀ ev ∈ newEvents d (ensureNetwork lib d name subnet masquerade).2,
        ev.call.isCreate = false
        ∧ (ev.call = APICall.NetworkList
            ∨ ∃ n ∈ d.networks, n.Name = name ∧ ev.call = APICall.NetworkRemove n.ID))
    ∧ (d.clientErr = none →
        (∀ ev ∈ newEvents d (ensureNetwork lib d name subnet masquerade).2, ev.err = none) →
        (ensureNetwork lib d name subnet masquerade).1 = ("", some (Err.parseCIDR subnet))
        ∧ e = Err.parseCIDR subnet
        ∧ (newEvents d (ensureNetwork lib d name subnet masquerade).2).map (fun ev => ev.call)
            = APICall.NetworkList
                :: (named name d.networks).map (fun n => APICall.NetworkRemove n.ID))
    ∧ (d.clientErr = none → (∀ f ∈ d.faults, f = none) →
        (d.networks.map (fun n => n.ID)).Nodup →
        (ensureNetwork lib d name subnet masquerade).1 = ("", some (Err.parseCIDR subnet)))
    ∧ ParseCIDR lib "not-a-cidr" = Except.error (Err.parseCIDR "not-a-cidr") := by
  have hopt := createOptions_of_parse_error lib name subnet masquerade e hne hparse
  have he := ParseCIDR_error lib subnet e hparse
  have hlast : ParseCIDR lib "not-a-cidr" = Except.error (Err.parseCIDR "not-a-cidr") := by
    rfl
  rcases ensureNetwork_cases lib d name subnet masquerade with
    ⟨msg, hc, hr⟩ | ⟨hc, e2, hl, hr⟩ | ⟨hc, hl, e2, hd, hr⟩ | ⟨hc, hl, hd, e2, ho, hr⟩
      | ⟨hc, hl, hd, o, ho, hr⟩
  · rw [hr]
    refine ⟨rfl, by simp, by simp [newEvents], ?_, ?_, hlast⟩
    · intro hc2; rw [hc] at hc2; simp at hc2
    · intro hc2; rw [hc] at hc2; simp at hc2
  · rw [hr, newEvents_of_log d _ _ (NetworkList_log d), hl]
    refine ⟨rfl, by simp, ?_, ?_, ?_, hlast⟩
    · intro ev hev
      simp only [List.mem_singleton] at hev
      rw [hev]
      exact ⟨rfl, Or.inl rfl⟩
    · intro _ hall
      have := hall _ (List.mem_singleton.mpr rfl)
      simp at this
    · intro _ hf _
      have := NetworkList_total d hf
      rw [hl] at this
      simp at this
  · obtain ⟨evs, hlog, hcl, hfa, hcalls, hok, hfail⟩ := afterDelete name d hl
    obtain ⟨pre2, last, hevs, hlast2, hpre2⟩ := hfail e2 hd
    rw [hr, newEvents_of_log d _ _ hlog]
    refine ⟨rfl, by simp, ?_, ?_, ?_, hlast⟩
    · intro ev hev
      rcases List.mem_cons.mp hev with h | h
      · rw [h]; exact ⟨rfl, Or.inl rfl⟩
      · obtain ⟨n, hn, hnn, hcall⟩ := hcalls ev h
        exact ⟨by rw [hcall]; rfl, Or.inr ⟨n, hn, hnn, hcall⟩⟩
    · intro _ hall
      have := hall last (by rw [hevs]; simp)
      rw [hlast2] at this
      simp at this
    · intro _ hf hnd
      have := deleteDuplicates_total name d.networks d.NetworkList.2 hnd
        (fun n hn _ => ⟨n, by rw [(NetworkList_frame d).1]; exact hn, rfl⟩)
        (by rw [(NetworkList_frame d).2.2]; exact no_faults_tail d hf)
      rw [hd] at this
      simp at this
  · obtain ⟨evs, hlog, hcl, hfa, hcalls, hok, hfail⟩ := afterDelete name d hl
    obtain ⟨hevok, hevcalls, -, -⟩ := hok hd
    have he2 : e2 = Err.parseCIDR subnet :=
      (createOptions_error lib name subnet masquerade e2 ho).2.2
    rw [hr, newEvents_of_log d _ _ hlog, he2]
    refine ⟨rfl, by simp, ?_, ?_, ?_, hlast⟩
    · intro ev hev
      rcases List.mem_cons.mp hev with h | h
      · rw [h]; exact ⟨rfl, Or.inl rfl⟩
      · obtain ⟨n, hn, hnn, hcall⟩ := hcalls ev h
        exact ⟨by rw [hcall]; rfl, Or.inr ⟨n, hn, hnn, hcall⟩⟩
    · intro _ _
      refine ⟨rfl, he, ?_⟩
      rw [List.map_cons, hevcalls]
    · intro _ _ _
      rfl
  · rw [hopt] at ho
    simp at ho

theorem invalid_subnet_aborts_witness :
    "not-a-cidr" ≠ ""
      ∧ ParseCIDR exampleLib "not-a-cidr" = Except.error (Err.parseCIDR "not-a-cidr")
      ∧ (ensureNetwork exampleLib exampleDocker "kmz-kind-multizone" "not-a-cidr" true).1
          = ("", some (Err.parseCIDR "not-a-cidr")) :=
  ⟨by decide, rfl,
    (invalid_subnet_aborts exampleLib exampleDocker "kmz-kind-multizone" "not-a-cidr" true
      (Err.parseCIDR "not-a-cidr") (by decide) rfl).2.2.2.2.1 rfl (by decide) (by decide)⟩

/-! ## The environment variable of `ensureCluster` -/

/-- C5 (the code departs from it): when the provider's `Create` fails, `ensureCluster` returns
the wrapped error and the variable `KIND_EXPERIMENTAL_DOCKER_NETWORK` is still set to the network
name; when `Create` succeeds the variable is unset. -/
theorem ensureCluster_env_after_create :
    (ensureCluster exampleLib exampleFlags exampleWorldCreateFails).1
        = some (Err.wrap (Err.provider "failed to init node") "Failed to create cluster")
      ∧ (ensureCluster exampleLib exampleFlags exampleWorldCreateFails).2.env
          "KIND_EXPERIMENTAL_DOCKER_NETWORK" = some "kmz-kind-multizone"
      ∧ (ensureCluster exampleLib exampleFlags exampleWorld).1 = none
      ∧ (ensureCluster exampleLib exampleFlags exampleWorld).2.env
          "KIND_EXPERIMENTAL_DOCKER_NETWORK" = none := by
  refine ⟨by decide, by decide, by decide, by decide⟩

/-! ## The address range of `createNetwork` -/

set_option maxRecDepth 100000 in
theorem leadingOnes_exits :
    ∀ v < 256, (leadingOnes 8 0 v).2 &&& 0x80 = 0 := by
  decide

theorem cidrMaskLoop_length (l : Nat) : ∀ n, (cidrMaskLoop l n).length = l := by
  induction l with
  | zero => intro n; rfl
  | succ l ih =>
    intro n
    unfold cidrMaskLoop
    split <;> simp [ih]

theorem CIDRMask_length (ones bits : Nat) (hb : bits = 32 ∨ bits = 128) (ho : ones ≤ bits) :
    (CIDRMask ones bits).length = bits / 8 := by
  unfold CIDRMask
  have h1 : ¬ ones > bits := by omega
  rcases hb with hb | hb <;> subst hb <;> simp [IPv4len, IPv6len, h1, cidrMaskLoop_length]

theorem ParseCIDR_ok (lib : NetLib) (s : String) (ip : List Nat) (n : IPNet)
    (h : ParseCIDR lib s = Except.ok (ip, n)) :
    ∃ (text : List Char) (addr : Addr) (k : Nat),
      ParseAddr lib text = some addr ∧ k ≤ addr.BitLen ∧ ip = addr.As16
        ∧ n.Mask = CIDRMask k addr.BitLen ∧ n.IP = IP_Mask addr.As16 (CIDRMask k addr.BitLen) := by
  unfold ParseCIDR at h
  simp only at h
  split at h
  · simp at h
  · split at h
    · simp at h
    · rename_i addr haddr
      split at h
      · simp at h
      · split at h
        · simp at h
        · rename_i hk
          simp only [Except.ok.injEq, Prod.mk.injEq] at h
          obtain ⟨hip, hn⟩ := h
          refine ⟨_, addr, (dtoi (List.drop (List.indexOf '/' s.toList + 1) s.toList)).1,
            haddr, ?_, hip.symm, ?_, ?_⟩
          · simp only [Bool.or_eq_true, not_or] at hk
            have := hk.2
            simpa using this
          · rw [← hn]
          · rw [← hn]

theorem parseIPv4Fields_bounds :
    ∀ (cs : List Char) (val pos digLen : Nat) (fields : List Nat) (atStart prevDot : Bool)
      (r : List Nat),
      parseIPv4Fields cs val pos digLen fields atStart prevDot = some r →
      val ≤ 255 → (∀ x ∈ fields, x ≤ 255) → ∀ x ∈ r, x ≤ 255 := by
  intro cs
  induction cs with
  | nil =>
    intro val pos digLen fields atStart prevDot r h hval hf x hx
    unfold parseIPv4Fields at h
    split at h
    · simp at h
    · simp only [Option.some.injEq] at h
      rw [← h] at hx
      rcases List.mem_append.mp hx with h1 | h1
      · exact hf x h1
      · simp only [List.mem_singleton] at h1
        rw [h1]; exact hval
  | cons c cs ih =>
    intro val pos digLen fields atStart prevDot r h hval hf
    unfold parseIPv4Fields at h
    split at h
    · split at h
      · simp at h
      · simp only at h
        split at h
        · simp at h
        · rename_i hle
          exact ih _ _ _ _ _ _ r h (by omega) hf
    · split at h
      · split at h
        · simp at h
        · split at h
          · simp at h
          · apply ih _ _ _ _ _ _ r h (by omega)
            intro x hx
            rcases List.mem_append.mp hx with h1 | h1
            · exact hf x h1
            · simp only [List.mem_singleton] at h1
              rw [h1]; exact hval
      · simp at h

theorem parseAddrScan_v4 (lib : NetLib) (s : List Char) (f : List Nat) :
    ∀ cs, parseAddrScan lib s cs = some (Addr.v4 f) → parseIPv4 s = some (Addr.v4 f) := by
  intro cs
  induction cs with
  | nil => intro h; simp [parseAddrScan] at h
  | cons c cs ih =>
    intro h
    unfold parseAddrScan at h
    split at h
    · exact h
    · split at h
      · cases hp : lib.parseIPv6 (String.mk s) <;> simp [hp] at h
      · split at h
        · simp at h
        · exact ih h

theorem ParseAddr_v4_bounds (lib : NetLib) (s : List Char) (f : List Nat)
    (h : ParseAddr lib s = some (Addr.v4 f)) : ∀ x ∈ f, x ≤ 255 := by
  have h2 := parseAddrScan_v4 lib s f s h
  unfold parseIPv4 at h2
  cases hp : parseIPv4Fields s 0 0 0 [] true false with
  | none => rw [hp] at h2; simp at h2
  | some r =>
    rw [hp] at h2
    simp only [Option.map_some', Option.some.injEq, Addr.v4.injEq] at h2
    subst h2
    exact parseIPv4Fields_bounds s 0 0 0 [] true false r hp (by omega) (by simp)

theorem IPMask_v4 (a b c d m0 m1 m2 m3 : Nat) :
    IP_Mask (v4InV6Prefix ++ [a, b, c, d]) [m0, m1, m2, m3]
      = [a &&& m0, b &&& m1, c &&& m2, d &&& m3] := by
  simp [IP_Mask, v4InV6Prefix, IPv4len, IPv6len]

theorem IPNetString_v4 (lib : NetLib) (a b c d : Nat) :
    IPNet_String lib { IP := [a, b, c, d], Mask := CIDRMask 27 32 }
      = toString a ++ "." ++ toString b ++ "." ++ toString c ++ "." ++ toString d ++ "/27" := by
  have hm : CIDRMask 27 32 = [255, 255, 255, 224] := by decide
  have hl : simpleMaskLength [255, 255, 255, 224] = 27 := by decide
  have h27 : ("/" : String) ++ toString (27 : Nat) = "/27" := by decide
  simp [IPNet_String, networkNumberAndMask, IP_To4, IPv4len, IPv6len, hm, hl, IP_String,
    dottedDecimal, String.intercalate, String.intercalate.go]
  rw [String.append_assoc, h27]

set_option maxRecDepth 100000 in
theorem land_maskByte :
    ∀ x < 256, ∀ r < 9, x &&& (0xff ^^^ (0xff >>> r)) = x / 2 ^ (8 - r) * 2 ^ (8 - r) := by
  decide

set_option maxRecDepth 100000 in
theorem CIDRMask_32 :
    ∀ p < 33, CIDRMask p 32
      = [0xff ^^^ (0xff >>> min p 8), 0xff ^^^ (0xff >>> min (p - 8) 8),
         0xff ^^^ (0xff >>> min (p - 16) 8), 0xff ^^^ (0xff >>> min (p - 24) 8)] := by
  decide

theorem masked_octets (a b c d p : Nat) (ha : a ≤ 255) (hb : b ≤ 255) (hc : c ≤ 255)
    (hd : d ≤ 255) (hp : p ≤ 32) :
    a / 2 ^ (8 - min p 8) * 2 ^ (8 - min p 8)
        = networkBase (ipv4Value a b c d) p / 2 ^ 24 % 256
    ∧ b / 2 ^ (8 - min (p - 8) 8) * 2 ^ (8 - min (p - 8) 8)
        = networkBase (ipv4Value a b c d) p / 2 ^ 16 % 256
    ∧ c / 2 ^ (8 - min (p - 16) 8) * 2 ^ (8 - min (p - 16) 8)
        = networkBase (ipv4Value a b c d) p / 2 ^ 8 % 256
    ∧ d / 2 ^ (8 - min (p - 24) 8) * 2 ^ (8 - min (p - 24) 8)
        = networkBase (ipv4Value a b c d) p % 256 := by
  interval_cases p <;> simp only [networkBase, ipv4Value] <;> norm_num <;> omega

theorem ParseCIDR_v4_network (lib : NetLib) (subnet : String) (a b c d p : Nat) (ipnet : IPNet)
    (hparse : ParseCIDR lib subnet = Except.ok (v4InV6Prefix ++ [a, b, c, d], ipnet))
    (hmask : ipnet.Mask = CIDRMask p 32) (hp : p ≤ 32) :
    (a ≤ 255 ∧ b ≤ 255 ∧ c ≤ 255 ∧ d ≤ 255)
    ∧ ipnet.IP
        = [networkBase (ipv4Value a b c d) p / 2 ^ 24 % 256,
           networkBase (ipv4Value a b c d) p / 2 ^ 16 % 256,
           networkBase (ipv4Value a b c d) p / 2 ^ 8 % 256,
           networkBase (ipv4Value a b c d) p % 256] := by
  obtain ⟨text, addr, k, haddr, hk, hip, hm, hIP⟩ := ParseCIDR_ok lib subnet _ ipnet hparse
  cases addr with
  | v6 bytes zone =>
    exfalso
    have h1 := CIDRMask_length k 128 (Or.inr rfl) hk
    have h2 := CIDRMask_length p 32 (Or.inl rfl) hp
    simp only [Addr.BitLen] at hm
    rw [← hm, hmask, h2] at h1
    simp at h1
  | v4 f =>
    simp only [Addr.As16] at hip hIP
    have hf : f = [a, b, c, d] := (List.append_cancel_left hip).symm
    subst hf
    have hb := ParseAddr_v4_bounds lib text _ haddr
    have ha : a ≤ 255 := hb a (by simp)
    have hb2 : b ≤ 255 := hb b (by simp)
    have hc : c ≤ 255 := hb c (by simp)
    have hd : d ≤ 255 := hb d (by simp)
    refine ⟨⟨ha, hb2, hc, hd⟩, ?_⟩
    simp only [Addr.BitLen] at hm hIP
    rw [← hm, hmask, CIDRMask_32 p (by omega), IPMask_v4] at hIP
    rw [land_maskByte a (by omega) _ (by omega), land_maskByte b (by omega) _ (by omega),
      land_maskByte c (by omega) _ (by omega), land_maskByte d (by omega) _ (by omega)] at hIP
    obtain ⟨h0, h1, h2, h3⟩ := masked_octets a b c d p ha hb2 hc hd hp
    rw [h0, h1, h2, h3] at hIP
    exact hIP

theorem createOptions_of_parse_ok (lib : NetLib) (name subnet : String) (masquerade : Bool)
    (ip : List Nat) (ipnet : IPNet) (hne : subnet ≠ "")
    (hparse : ParseCIDR lib subnet = Except.ok (ip, ipnet)) :
    createOptions lib name subnet masquerade
      = Except.ok
          { Attachable := true
            Options :=
              [("com.docker.network.bridge.name", name),
               ("com.docker.network.driver.mtu", "1500"),
               ("com.docker.network.bridge.enable_ip_masquerade", toString masquerade)]
            IPAM := some { Config :=
              [{ Subnet := subnet
                 IPRange := IPNet_String lib { IP := ipnet.IP, Mask := CIDRMask 27 32 } }] } } := by
  unfold createOptions
  have hb : (subnet != "") = true := by simpa using hne
  simp only [hb, if_true, hparse]
  rfl

/-- C6: for a non-empty subnet that parses as the IPv4 CIDR `a.b.c.d/p`, the options that
`createNetwork` sends to `NetworkCreate` carry one IPAM entry, whose `Subnet` is the caller's
string and whose `IPRange` is the dotted-decimal text of the network base of `a.b.c.d` under
`/p` followed by `/27`; for `"10.0.0.0/24"` the `IPRange` is `"10.0.0.0/27"`. -/
theorem createNetwork_ipRange (lib : NetLib) (d : Docker) (name subnet : String)
    (masquerade : Bool) (a b c dd p : Nat) (ipnet : IPNet) (hne : subnet ≠ "")
    (hparse : ParseCIDR lib subnet = Except.ok (v4InV6Prefix ++ [a, b, c, dd], ipnet))
    (hmask : ipnet.Mask = CIDRMask p 32) (hp : p ≤ 32) :
    createNetwork lib d name subnet masquerade
        = d.NetworkCreate name
            { Attachable := true
              Options :=
                [("com.docker.network.bridge.name", name),
                 ("com.docker.network.driver.mtu", "1500"),
                 ("com.docker.network.bridge.enable_ip_masquerade", toString masquerade)]
              IPAM := some { Config :=
                [{ Subnet := subnet
                   IPRange := dottedOfValue (networkBase (ipv4Value a b c dd) p) ++ "/27" }] } }
    ∧ (ipRangeNet lib subnet).map (IPNet_String lib)
        = some (dottedOfValue (networkBase (ipv4Value a b c dd) p) ++ "/27")
    ∧ (ipRangeNet lib "10.0.0.0/24").map (IPNet_String lib) = some "10.0.0.0/27" := by
  obtain ⟨-, hIP⟩ := ParseCIDR_v4_network lib subnet a b c dd p ipnet hparse hmask hp
  have hstr : IPNet_String lib { IP := ipnet.IP, Mask := CIDRMask 27 32 }
      = dottedOfValue (networkBase (ipv4Value a b c dd) p) ++ "/27" := by
    rw [hIP, IPNetString_v4]
    rfl
  refine ⟨?_, ?_, ?_⟩
  · rw [createNetwork_eq, createOptions_of_parse_ok lib name subnet masquerade _ ipnet hne hparse,
      hstr]
  · simp only [ipRangeNet, hparse, Option.map_some']
    rw [hstr]
  · rfl

theorem createNetwork_ipRange_witness :
    "10.0.0.77/24" ≠ "" ∧ 24 ≤ 32
      ∧ (ipRangeNet exampleLib "10.0.0.77/24").map (IPNet_String exampleLib)
          = some (dottedOfValue (networkBase (ipv4Value 10 0 0 77) 24) ++ "/27")
      ∧ dottedOfValue (networkBase (ipv4Value 10 0 0 77) 24) ++ "/27" = "10.0.0.0/27" :=
  ⟨by decide, by decide,
    (createNetwork_ipRange exampleLib exampleDocker "kmz-kind-multizone" "10.0.0.77/24" true
      10 0 0 77 24 ⟨[10, 0, 0, 0], [255, 255, 255, 0]⟩ (by decide) rfl rfl (by decide)).2.1,
    by decide⟩

theorem networkBase_lt (addr p : Nat) (h : addr < 2 ^ 32) : networkBase addr p < 2 ^ 32 :=
  lt_of_le_of_lt (Nat.div_mul_le_self addr _) h

theorem ipv4Value_lt (a b c d : Nat) (ha : a ≤ 255) (hb : b ≤ 255) (hc : c ≤ 255)
    (hd : d ≤ 255) : ipv4Value a b c d < 2 ^ 32 := by
  simp only [ipv4Value]
  norm_num
  omega

theorem bytesValue_octets (v : Nat) (hv : v < 2 ^ 32) :
    bytesValue [v / 2 ^ 24 % 256, v / 2 ^ 16 % 256, v / 2 ^ 8 % 256, v % 256] = v := by
  simp only [bytesValue, List.foldl]
  norm_num at hv ⊢
  omega

theorem simpleMaskLength_27 : simpleMaskLength (CIDRMask 27 32) = 27 := by decide

/-- C7, as the code has it: for a non-empty subnet that parses as the IPv4 CIDR `a.b.c.d/p` with
`p ≤ 27`, the range whose text `createNetwork` sends as `IPRange` is a `/27` block based at the
subnet's network base, that base is aligned to a `/27` boundary, and each of its 32 addresses
lies inside the declared subnet. -/
theorem ipRange_subblock (lib : NetLib) (name subnet : String) (masquerade : Bool)
    (a b c dd p : Nat) (ipnet : IPNet) (hne : subnet ≠ "")
    (hparse : ParseCIDR lib subnet = Except.ok (v4InV6Prefix ++ [a, b, c, dd], ipnet))
    (hmask : ipnet.Mask = CIDRMask p 32) (hp : p ≤ 27) :
    ∃ range, ipRangeNet lib subnet = some range
      ∧ createOptions lib name subnet masquerade
          = Except.ok
              { Attachable := true
                Options :=
                  [("com.docker.network.bridge.name", name),
                   ("com.docker.network.driver.mtu", "1500"),
                   ("com.docker.network.bridge.enable_ip_masquerade", toString masquerade)]
                IPAM := some { Config :=
                  [{ Subnet := subnet, IPRange := IPNet_String lib range }] } }
      ∧ simpleMaskLength range.Mask = 27
      ∧ bytesValue range.IP = networkBase (ipv4Value a b c dd) p
      ∧ IsSubBlock range (ipv4Value a b c dd) p := by
  obtain ⟨⟨ha, hb, hc, hd⟩, hIP⟩ :=
    ParseCIDR_v4_network lib subnet a b c dd p ipnet hparse hmask (by omega)
  have hval : bytesValue ipnet.IP = networkBase (ipv4Value a b c dd) p := by
    rw [hIP]
    exact bytesValue_octets _ (networkBase_lt _ _ (ipv4Value_lt a b c dd ha hb hc hd))
  refine ⟨{ IP := ipnet.IP, Mask := CIDRMask 27 32 }, ?_, ?_, simpleMaskLength_27, hval, ?_⟩
  · simp only [ipRangeNet, hparse]
  · exact createOptions_of_parse_ok lib name subnet masquerade _ ipnet hne hparse
  · have hpow : (2 : Nat) ^ (32 - p) = 2 ^ (27 - p) * 2 ^ 5 := by
      rw [← Nat.pow_add]
      congr 1
      omega
    have hpos : 0 < (2 : Nat) ^ (27 - p) := Nat.pow_pos (by decide)
    have hM : 0 < (2 : Nat) ^ (32 - p) := Nat.pow_pos (by decide)
    simp only [IsSubBlock, simpleMaskLength_27, hval]
    have h5 : 32 - (27 : Int).toNat = 5 := by decide
    rw [h5]
    constructor
    · simp only [networkBase, hpow]
      rw [← Nat.mul_assoc]
      exact Nat.mul_mod_left _ _
    · intro x hlo hhi
      simp only [networkBase] at hlo hhi
      apply Nat.div_eq_of_lt_le
      · exact hlo
      · have h32 : (2 : Nat) ^ 5 ≤ 2 ^ (32 - p) := by
          rw [hpow]
          exact Nat.le_mul_of_pos_left _ hpos
        calc x < ipv4Value a b c dd / 2 ^ (32 - p) * 2 ^ (32 - p) + 2 ^ 5 := hhi
          _ ≤ ipv4Value a b c dd / 2 ^ (32 - p) * 2 ^ (32 - p) + 2 ^ (32 - p) :=
              Nat.add_le_add_left h32 _
          _ = (ipv4Value a b c dd / 2 ^ (32 - p) + 1) * 2 ^ (32 - p) := by
              rw [Nat.add_mul, Nat.one_mul]

theorem ipRange_subblock_witness :
    "10.0.0.77/24" ≠ "" ∧ 24 ≤ 27
      ∧ ∃ range, ipRangeNet exampleLib "10.0.0.77/24" = some range
          ∧ IsSubBlock range (ipv4Value 10 0 0 77) 24 := by
  refine ⟨by decide, by decide, ?_⟩
  obtain ⟨range, h1, -, -, -, h2⟩ :=
    ipRange_subblock exampleLib "kmz-kind-multizone" "10.0.0.77/24" true
      10 0 0 77 24 ⟨[10, 0, 0, 0], [255, 255, 255, 0]⟩ (by decide) rfl rfl (by decide)
  exact ⟨range, h1, h2⟩

/-- C7, as stated, fails: `"10.0.0.8/29"` parses as the IPv4 CIDR `10.0.0.8/29`, the `IPRange`
sent is `"10.0.0.8/27"`, whose base `10.0.0.8` is not aligned to a `/27` boundary and whose
address `10.0.0.16` lies outside the declared subnet. -/
theorem ipRange_not_subblock :
    ParseCIDR exampleLib "10.0.0.8/29"
        = Except.ok (v4InV6Prefix ++ [10, 0, 0, 8], ⟨[10, 0, 0, 8], CIDRMask 29 32⟩)
      ∧ ipRangeNet exampleLib "10.0.0.8/29" = some ⟨[10, 0, 0, 8], CIDRMask 27 32⟩
      ∧ (ipRangeNet exampleLib "10.0.0.8/29").map (IPNet_String exampleLib) = some "10.0.0.8/27"
      ∧ createOptions exampleLib "kmz-kind-multizone" "10.0.0.8/29" true
          = Except.ok
              { Attachable := true
                Options :=
                  [("com.docker.network.bridge.name", "kmz-kind-multizone"),
                   ("com.docker.network.driver.mtu", "1500"),
                   ("com.docker.network.bridge.enable_ip_masquerade", "true")]
                IPAM := some { Config := [{ Subnet := "10.0.0.8/29", IPRange := "10.0.0.8/27" }] } }
      ∧ ¬ IsSubBlock ⟨[10, 0, 0, 8], CIDRMask 27 32⟩ (ipv4Value 10 0 0 8) 29
      ∧ bytesValue [10, 0, 0, 8] % 2 ^ (32 - 27) ≠ 0
      ∧ (bytesValue [10, 0, 0, 8] ≤ ipv4Value 10 0 0 16
          ∧ ipv4Value 10 0 0 16 < bytesValue [10, 0, 0, 8] + 2 ^ (32 - 27)
          ∧ ipv4Value 10 0 0 16 / 2 ^ (32 - 29) ≠ ipv4Value 10 0 0 8 / 2 ^ (32 - 29)) := by
  refine ⟨rfl, by decide, by decide, rfl, ?_, by decide, by decide, by decide, by decide⟩
  intro h
  have h1 := h.1
  rw [simpleMaskLength_27] at h1
  exact absurd h1 (by decide)

end KindMultizone
